import Mathlib

/-! Verification development for the probe command and the recipes runner.

Embedded sources:

* `cmd/cyclonus/pkg/cli/probe.go`: `ProbeArgs`, `SetupProbeCommand`, `RunProbeCommand`
* `cmd/policy-assistant/pkg/recipes/recipe.go`: `Recipe`, `Recipe.Policies`,
  `Recipe.RunProbe`, `AllRecipes`, `Run`

Go code with effects is embedded as a state-passing program: the state carries
the outside world (cluster, file system) and a trace of the calls made to the
collaborating packages, in call order. A Go `panic` and a fatal exit through
`DoOrDie` stop the program and keep the state reached so far.
-/

set_option autoImplicit false

namespace NetPol

/-! ## Programs with a trace -/

/-- Go `error` values, identified with their message. -/
abbrev Err := String

/-- The Go type `v1.Protocol` is a string type. -/
abbrev Protocol := String

/-- The constant `v1.ProtocolTCP`. -/
def ProtocolTCP : Protocol := "TCP"

/-- Ways a Go program stops early: a `panic(err)` statement, or `DoOrDie(err)`
with a non-nil error. -/
inductive Halt where
  | panicked (e : Err)
  | died (e : Err)
  deriving DecidableEq, Repr

/-- Result of running a program from a state: a value and the state after, or
an early stop and the state reached. -/
inductive Res (σ α : Type) where
  | ok (a : α) (s : σ)
  | halt (h : Halt) (s : σ)
  deriving DecidableEq, Repr

/-- State-passing programs. -/
def Prog (σ α : Type) : Type := σ → Res σ α

/-- Sequencing: an early stop skips the rest. -/
def Prog.bind {σ α β : Type} (x : Prog σ α) (f : α → Prog σ β) : Prog σ β :=
  fun s =>
    match x s with
    | Res.ok a s1 => f a s1
    | Res.halt h s1 => Res.halt h s1

instance instMonadProg {σ : Type} : Monad (Prog σ) where
  pure a := fun s => Res.ok a s
  bind := Prog.bind

/-- The value a run returns, if it returns. -/
def Res.value? {σ α : Type} : Res σ α → Option α
  | Res.ok a _ => some a
  | Res.halt _ _ => none

/-- The state after a run. -/
def Res.state {σ α : Type} : Res σ α → σ
  | Res.ok _ s => s
  | Res.halt _ s => s

/-- The early stop of a run, if any. -/
def Res.halted {σ α : Type} : Res σ α → Option Halt
  | Res.ok _ _ => none
  | Res.halt h _ => some h

/-- The outside world together with the calls made so far. -/
structure St (W Ev : Type) where
  world : W
  trace : List Ev
  deriving DecidableEq, Repr

/-- Record a call in the trace. -/
def emit {W Ev : Type} (ev : Ev) : Prog (St W Ev) Unit :=
  fun s => Res.ok () { s with trace := s.trace ++ [ev] }

/-- A call that only reads the world. -/
def readWorld {W Ev α : Type} (f : W → α) : Prog (St W Ev) α :=
  fun s => Res.ok (f s.world) s

/-- A call that may change the world. -/
def stepWorld {W Ev α : Type} (f : W → α × W) : Prog (St W Ev) α :=
  fun s => Res.ok (f s.world).1 { s with world := (f s.world).2 }

/-- The Go statement `panic(errors.Errorf(msg))`. -/
def goPanic {σ α : Type} (msg : Err) : Prog σ α :=
  fun s => Res.halt (Halt.panicked msg) s

/-- Modelled from the spec: `utils.DoOrDie` is not in the embedded sources.
Section 7 has an error surfaced immediately and the whole run failed rather
than a step skipped: `DoOrDie` takes the error of the preceding call; a non-nil
error ends the whole run, a nil error lets it continue with the value the call
returned. -/
def DoOrDie {σ α : Type} : Except Err α → Prog σ α
  | Except.ok a => fun s => Res.ok a s
  | Except.error e => fun s => Res.halt (Halt.died e) s

/-! ## `cmd/cyclonus/pkg/cli/probe.go` -/

/-- The struct `ProbeArgs`. -/
structure ProbeArgs where
  Namespaces : List String
  Pods : List String
  Noisy : Bool
  IgnoreLoopback : Bool
  KubeContext : String
  NetpolCreationWaitSeconds : Int
  PolicyPath : String
  Ports : List Int
  Protocols : List String
  deriving DecidableEq, Repr

/-- One command line flag registered by `SetupProbeCommand`: name and usage text. -/
structure Flag where
  Name : String
  Usage : String
  deriving DecidableEq, Repr

/-- The flags registered by `SetupProbeCommand`, in registration order. -/
def SetupProbeCommand_flags : List Flag :=
  [ ⟨"namespaces", "namespaces to create/use pods in"⟩,
    ⟨"pods", "pods to create in namespaces"⟩,
    ⟨"port", "port to run probes on"⟩,
    ⟨"protocol", "protocol to run probes on"⟩,
    ⟨"noisy", "if true, print all results"⟩,
    ⟨"ignore-loopback", "if true, ignore loopback for truthtable correctness verification"⟩,
    ⟨"kube-context", "kubernetes context to use; if empty, uses default context"⟩,
    ⟨"netpol-creation-wait-seconds", "number of seconds to wait after creating a network policy before running probes, to give the CNI time to update the cluster state"⟩,
    ⟨"policy-path", "path to yaml network policy to create in kube; if empty, will not create any policies"⟩ ]

/-- The flag defaults of `SetupProbeCommand`: the arguments `RunProbeCommand`
gets when the command line sets no flag. -/
def SetupProbeCommand_defaults : ProbeArgs :=
  { Namespaces := ["x", "y", "z"]
    Pods := ["a", "b", "c"]
    Ports := [80]
    Protocols := [ProtocolTCP]
    Noisy := false
    IgnoreLoopback := false
    KubeContext := ""
    NetpolCreationWaitSeconds := 15
    PolicyPath := "" }

/-- Values of `generator.Action` built by the two constructors the command uses. -/
inductive Action (NP : Type) where
  | ReadNetworkPolicies (namespaces : List String)
  | CreatePolicy (policy : NP)
  deriving DecidableEq, Repr

/-- The test case built by `generator.NewSingleStepTestCase(description, port,
protocol, actions...)`, kept as the arguments it is built from. -/
structure TestCase (NP : Type) where
  Description : String
  Port : Int
  Protocol : Protocol
  Actions : List (Action NP)
  deriving DecidableEq, Repr

/-- The constructor `generator.NewSingleStepTestCase`. -/
def NewSingleStepTestCase {NP : Type} (description : String) (port : Int) (protocol : Protocol)
    (actions : List (Action NP)) : TestCase NP :=
  { Description := description, Port := port, Protocol := protocol, Actions := actions }

/-- The struct literal `connectivity.Printer` of lines 86-89. -/
structure Printer where
  Noisy : Bool
  IgnoreLoopback : Bool
  deriving DecidableEq, Repr

/-- The packages `RunProbeCommand` calls into (`kube`, `connectivity`, `ioutil`,
`yaml`), as parameters. `W` is the outside world, `K` the kubernetes client,
`I` the interpreter, `R` the result of a test case, `NP` the network policy
type. Creating the interpreter and executing a test case may change the world;
creating the client and reading a file read it. `ExecuteTestCase` has no error
return in the source: it yields a result. -/
structure ProbeEnv (W K I R NP : Type) where
  NewKubernetesForContext : String → W → Except Err K
  ParseProtocol : String → Except Err Protocol
  NewInterpreter : K → List String → List String → List Int → List Protocol → Bool → Int →
    W → Except Err I × W
  ReadFile : String → W → Except Err String
  Unmarshal : String → Except Err NP
  ExecuteTestCase : I → TestCase NP → W → R × W

/-- Calls made by `RunProbeCommand`, as recorded in the trace.
`PrintTestCaseResult` writes to standard output: the event is its whole effect. -/
inductive Event (R NP : Type) where
  | NewKubernetesForContext (context : String)
  | ParseProtocol (protocol : String)
  | NewInterpreter (namespaces pods : List String) (ports : List Int) (protocols : List Protocol)
      (flag : Bool) (count : Int)
  | ReadFile (path : String)
  | Unmarshal (bytes : String)
  | ExecuteTestCase (testCase : TestCase NP) (result : R)
  | PrintTestCaseResult (printer : Printer) (result : R)
  deriving DecidableEq, Repr

section probe
variable {W K I R NP : Type}

/-- Lines 63-68: parse every protocol string in order, stopping at the first
that does not parse. -/
def parseProtocols (env : ProbeEnv W K I R NP) :
    List String → List Protocol → Prog (St W (Event R NP)) (List Protocol)
  | [], protocols => pure protocols
  | protocol :: rest, protocols => do
      emit (Event.ParseProtocol protocol)
      let parsedProtocol ← DoOrDie (env.ParseProtocol protocol)
      parseProtocols env rest (protocols ++ [parsedProtocol])

/-- Lines 92-96: the inner loop over the parsed protocols for one port. -/
def forProtocols (env : ProbeEnv W K I R NP) (interpreter : I) (printer : Printer)
    (actions : List (Action NP)) (port : Int) :
    List Protocol → Prog (St W (Event R NP)) Unit
  | [] => pure ()
  | protocol :: rest => do
      let testCase := NewSingleStepTestCase "one-off probe" port protocol actions
      let result ← stepWorld (env.ExecuteTestCase interpreter testCase)
      emit (Event.ExecuteTestCase testCase result)
      emit (Event.PrintTestCaseResult printer result)
      forProtocols env interpreter printer actions port rest

/-- Lines 91-97: the outer loop over the ports. -/
def forPorts (env : ProbeEnv W K I R NP) (interpreter : I) (printer : Printer)
    (actions : List (Action NP)) (protocols : List Protocol) :
    List Int → Prog (St W (Event R NP)) Unit
  | [] => pure ()
  | port :: rest => do
      forProtocols env interpreter printer actions port protocols
      forPorts env interpreter printer actions protocols rest

/-- The function `RunProbeCommand`. -/
def RunProbeCommand (env : ProbeEnv W K I R NP) (args : ProbeArgs) :
    Prog (St W (Event R NP)) Unit := do
  if args.Namespaces.length == 0 || args.Pods.length == 0 then
    goPanic "found 0 namespaces or pods, must have at least 1 of each"
  emit (Event.NewKubernetesForContext args.KubeContext)
  let kubernetes ← DoOrDie (← readWorld (env.NewKubernetesForContext args.KubeContext))
  let protocols ← parseProtocols env args.Protocols []
  emit (Event.NewInterpreter args.Namespaces args.Pods args.Ports protocols false 0)
  let interpreter ← DoOrDie (← stepWorld
    (env.NewInterpreter kubernetes args.Namespaces args.Pods args.Ports protocols false 0))
  let actions : List (Action NP) := [Action.ReadNetworkPolicies args.Namespaces]
  let actions ←
    if args.PolicyPath != "" then do
      emit (Event.ReadFile args.PolicyPath)
      let policyBytes ← DoOrDie (← readWorld (env.ReadFile args.PolicyPath))
      emit (Event.Unmarshal policyBytes)
      let kubePolicy ← DoOrDie (env.Unmarshal policyBytes)
      pure (actions ++ [Action.CreatePolicy kubePolicy])
    else
      pure actions
  let printer : Printer := { Noisy := args.Noisy, IgnoreLoopback := args.IgnoreLoopback }
  forPorts env interpreter printer actions protocols args.Ports

/-- Lines 56-84 of `RunProbeCommand` on their own: validation, client, protocols,
interpreter and actions, returning what the loop of lines 91-97 uses. -/
def RunProbeCommand.setup (env : ProbeEnv W K I R NP) (args : ProbeArgs) :
    Prog (St W (Event R NP)) (I × List (Action NP) × List Protocol) := do
  if args.Namespaces.length == 0 || args.Pods.length == 0 then
    goPanic "found 0 namespaces or pods, must have at least 1 of each"
  emit (Event.NewKubernetesForContext args.KubeContext)
  let kubernetes ← DoOrDie (← readWorld (env.NewKubernetesForContext args.KubeContext))
  let protocols ← parseProtocols env args.Protocols []
  emit (Event.NewInterpreter args.Namespaces args.Pods args.Ports protocols false 0)
  let interpreter ← DoOrDie (← stepWorld
    (env.NewInterpreter kubernetes args.Namespaces args.Pods args.Ports protocols false 0))
  let actions : List (Action NP) := [Action.ReadNetworkPolicies args.Namespaces]
  let actions ←
    if args.PolicyPath != "" then do
      emit (Event.ReadFile args.PolicyPath)
      let policyBytes ← DoOrDie (← readWorld (env.ReadFile args.PolicyPath))
      emit (Event.Unmarshal policyBytes)
      let kubePolicy ← DoOrDie (env.Unmarshal policyBytes)
      pure (actions ++ [Action.CreatePolicy kubePolicy])
    else
      pure actions
  pure (interpreter, actions, protocols)

/-- The events of the setup part of a run in which every setup call succeeds. -/
def setupTrace (args : ProbeArgs) (protocols : List Protocol) (policyBytes : Option String) :
    List (Event R NP) :=
  [Event.NewKubernetesForContext args.KubeContext] ++
    args.Protocols.map Event.ParseProtocol ++
    [Event.NewInterpreter args.Namespaces args.Pods args.Ports protocols false 0] ++
    (match policyBytes with
      | some bytes => [Event.ReadFile args.PolicyPath, Event.Unmarshal bytes]
      | none => [])

/-- Validation and setup of lines 56-84 pass from world `w`: there is a namespace
and a pod, the client is created, every protocol string parses (to `protocols`,
in order), the interpreter is created (as `interpreter`, leaving world `w1`),
and either no policy path is set (`policy` is `none`) or the file at the policy
path is read and unmarshalled (`policy` is its bytes and the policy). -/
structure SetupPasses (env : ProbeEnv W K I R NP) (args : ProbeArgs) (w : W) (interpreter : I)
    (protocols : List Protocol) (w1 : W) (policy : Option (String × NP)) : Prop where
  namespaces : args.Namespaces ≠ []
  pods : args.Pods ≠ []
  client : ∃ kubernetes, env.NewKubernetesForContext args.KubeContext w = Except.ok kubernetes ∧
    env.NewInterpreter kubernetes args.Namespaces args.Pods args.Ports protocols false 0 w =
      (Except.ok interpreter, w1)
  parsed : List.Forall₂ (fun str p => env.ParseProtocol str = Except.ok p) args.Protocols protocols
  loaded : match policy with
    | none => args.PolicyPath = ""
    | some (bytes, kubePolicy) =>
        args.PolicyPath ≠ "" ∧ env.ReadFile args.PolicyPath w1 = Except.ok bytes ∧
          env.Unmarshal bytes = Except.ok kubePolicy

/-- The action list of lines 73-84 for a loaded policy, if any. -/
def probeActions (args : ProbeArgs) (policy : Option (String × NP)) : List (Action NP) :=
  match policy with
  | none => [Action.ReadNetworkPolicies args.Namespaces]
  | some (_, kubePolicy) =>
      [Action.ReadNetworkPolicies args.Namespaces, Action.CreatePolicy kubePolicy]

/-- The test cases of the loop of lines 91-97, in the order the loop builds
them: for each port in order, one per protocol in order. -/
def testCases (actions : List (Action NP)) (ports : List Int) (protocols : List Protocol) :
    List (TestCase NP) :=
  (ports ×ˢ protocols).map
    (fun pp => NewSingleStepTestCase "one-off probe" pp.1 pp.2 actions)

/-- The results of executing test cases one after the other from a world, and
the world after the last. -/
def executeAll (env : ProbeEnv W K I R NP) (interpreter : I) :
    List (TestCase NP) → W → List R × W
  | [], w => ([], w)
  | testCase :: rest, w =>
      ((env.ExecuteTestCase interpreter testCase w).1 ::
          (executeAll env interpreter rest (env.ExecuteTestCase interpreter testCase w).2).1,
        (executeAll env interpreter rest (env.ExecuteTestCase interpreter testCase w).2).2)

/-- The events of a loop that executes test cases and prints each result right
after it is produced. -/
def loopTrace (printer : Printer) (cases : List (TestCase NP)) (results : List R) :
    List (Event R NP) :=
  (cases.zip results).flatMap
    (fun cr => [Event.ExecuteTestCase cr.1 cr.2, Event.PrintTestCaseResult printer cr.2])

/-- The test cases executed in a trace with their results, in order. -/
def executed (trace : List (Event R NP)) : List (TestCase NP × R) :=
  trace.filterMap
    (fun ev => match ev with
      | Event.ExecuteTestCase testCase result => some (testCase, result)
      | _ => none)

/-- The printers used in a trace, in order. -/
def printersUsed (trace : List (Event R NP)) : List Printer :=
  trace.filterMap
    (fun ev => match ev with
      | Event.PrintTestCaseResult printer _ => some printer
      | _ => none)

/-- Whether an event is a call of the setup part of `RunProbeCommand`. -/
def Event.isSetup : Event R NP → Bool
  | Event.ExecuteTestCase _ _ => false
  | Event.PrintTestCaseResult _ _ => false
  | _ => true

end probe

/-! ## `cmd/policy-assistant/pkg/recipes/recipe.go` -/

/-- The struct `Recipe`; `RS` is the type `probe.Resources`. -/
structure Recipe (RS : Type) where
  PolicyYamls : List String
  Resources : RS
  Protocol : Protocol
  Port : Int
  deriving DecidableEq, Repr

/-- The struct literal `probe.JobBuilder` of line 33. -/
structure JobBuilder where
  TimeoutSeconds : Int
  deriving DecidableEq, Repr

/-- The library type `intstr.IntOrString` of the Kubernetes API machinery: a
value of kind `Int` with an `IntVal` of Go type `int32`, or of kind `String`
with a `StrVal`. -/
inductive IntOrString where
  | ofInt (IntVal : Int)
  | ofString (StrVal : String)
  deriving DecidableEq, Repr

/-- The Go conversion `int32(val)` of an `int`: the value modulo `2 ^ 32`, in
the range from `-2 ^ 31` up to `2 ^ 31 - 1`. -/
def toInt32 (val : Int) : Int :=
  (val + 2147483648) % 4294967296 - 2147483648

/-- Whether a Go `int` lies outside the range of `int32`: the test
`val > math.MaxInt32 || val < math.MinInt32` of `intstr.FromInt`. -/
def overflowsInt32 (val : Int) : Bool :=
  decide (val > 2147483647) || decide (val < -2147483648)

/-- Probe modes of the generator package; only the service name mode occurs in
the embedded sources. -/
inductive ProbeMode where
  | ProbeModeServiceName
  deriving DecidableEq, Repr

/-- The probe configuration built by `generator.NewProbeConfig(port, protocol,
mode)`, kept as the arguments it is built from. -/
structure ProbeConfig where
  Port : IntOrString
  Protocol : Protocol
  Mode : ProbeMode
  deriving DecidableEq, Repr

/-- The constructor `generator.NewProbeConfig`. -/
def NewProbeConfig (port : IntOrString) (protocol : Protocol) (mode : ProbeMode) : ProbeConfig :=
  { Port := port, Protocol := protocol, Mode := mode }

/-- The packages `recipe.go` calls into (`utils`, `matcher`, `probe`), as
parameters; they are functions of their arguments, as section 5 of the
specification has compilation and evaluation pure and free of side effects. `NP` is the network policy type, `PM` the policy model returned by
`BuildNetworkPolicies`, `RN` the runner, `RS` the resources, `TB` the table.
`BuildNetworkPolicies` returns one value in the source; a policy set it rejects
can only stop the run, which is the `Except.error` case. -/
structure RecipeEnv (NP PM RN RS TB : Type) where
  ParseYaml : String → Except Err NP
  BuildNetworkPolicies : Bool → List NP → Except Err PM
  NewSimulatedRunner : PM → JobBuilder → RN
  RunProbeForConfig : RN → ProbeConfig → RS → TB
  ExplainTable : PM → String
  RenderResources : RS → String
  RenderTable : TB → String
  RenderIngress : TB → String
  RenderEgress : TB → String

/-- Calls made by `RunProbe` and `Run`, as recorded in the trace. `Printf` is a
call of `fmt.Printf` with a format and its string argument, if it has one;
`Errorf` is the call of `klog.Errorf` inside `intstr.FromInt`, which writes an
error line for the value to the log. -/
inductive RecipeEvent (PM : Type) where
  | NewSimulatedRunner (policies : PM) (jobBuilder : JobBuilder)
  | ExplainTable (policies : PM)
  | Printf (format : String) (arg : Option String)
  | Errorf (format : String) (val : Int)
  deriving DecidableEq, Repr

/-- The library function `intstr.FromInt(val)` of the Kubernetes API machinery:
it logs an error when `val` overflows `int32` and returns the value of kind
`Int` holding `int32(val)`. -/
def FromInt {W PM : Type} (val : Int) : Prog (St W (RecipeEvent PM)) IntOrString := do
  if overflowsInt32 val then
    emit (RecipeEvent.Errorf "value: %d overflows int32\n%s\n" val)
  pure (IntOrString.ofInt (toInt32 val))

section recipes
variable {W NP PM RN RS TB : Type}

/-- Lines 24-28: the loop of `Policies`, with the slice built so far. -/
def Recipe.Policies.loop (env : RecipeEnv NP PM RN RS TB) :
    List String → List NP → Prog (St W (RecipeEvent PM)) (List NP)
  | [], policies => pure policies
  | yamlString :: rest, policies => do
      let netpol ← DoOrDie (env.ParseYaml yamlString)
      Recipe.Policies.loop env rest (policies ++ [netpol])

/-- The method `Recipe.Policies`. -/
def Recipe.Policies (env : RecipeEnv NP PM RN RS TB) (r : Recipe RS) :
    Prog (St W (RecipeEvent PM)) (List NP) :=
  Recipe.Policies.loop env r.PolicyYamls []

/-- The call `matcher.BuildNetworkPolicies(simplify, policies)`: a rejected
policy set stops the run. -/
def BuildNetworkPolicies (env : RecipeEnv NP PM RN RS TB) (simplify : Bool) (policies : List NP) :
    Prog (St W (RecipeEvent PM)) PM :=
  match env.BuildNetworkPolicies simplify policies with
  | Except.ok model => pure model
  | Except.error e => goPanic e

/-- The method `Recipe.RunProbe`. -/
def Recipe.RunProbe (env : RecipeEnv NP PM RN RS TB) (r : Recipe RS) :
    Prog (St W (RecipeEvent PM)) TB := do
  let model ← BuildNetworkPolicies env true (← Recipe.Policies env r)
  let jobBuilder : JobBuilder := { TimeoutSeconds := 5 }
  emit (RecipeEvent.NewSimulatedRunner model jobBuilder)
  let runner := env.NewSimulatedRunner model jobBuilder
  pure (env.RunProbeForConfig runner
    (NewProbeConfig (← FromInt r.Port) r.Protocol ProbeMode.ProbeModeServiceName)
    r.Resources)

/-- The recipe and resources constants of the package, defined in files that are
not embedded here. -/
structure RecipeConsts (RS : Type) where
  Recipe01 : String
  Recipe02 : String
  Recipe02A : String
  Recipe03 : String
  Recipe04 : String
  Recipe05 : String
  Recipe06 : String
  Recipe07 : String
  Recipe08 : String
  Recipe09 : String
  Recipe10 : String
  Recipe11_1 : String
  Recipe11_2 : String
  Recipe12 : String
  Recipe14 : String
  Resources01 : RS
  Resources02 : RS
  Resources02A : RS
  Resources03 : RS
  Resources04 : RS
  Resources05 : RS
  Resources06 : RS
  Resources07 : RS
  Resources08 : RS
  Resources09 : RS
  Resources10 : RS
  Resources11_1 : RS
  Resources11_2 : RS
  Resources12 : RS
  Resources14 : RS

/-- The variable `AllRecipes`. -/
def AllRecipes (c : RecipeConsts RS) : List (Recipe RS) :=
  [ ⟨[c.Recipe01], c.Resources01, ProtocolTCP, 80⟩,
    ⟨[c.Recipe02], c.Resources02, ProtocolTCP, 80⟩,
    ⟨[c.Recipe01, c.Recipe02A], c.Resources02A, ProtocolTCP, 80⟩,
    ⟨[c.Recipe03], c.Resources03, ProtocolTCP, 80⟩,
    ⟨[c.Recipe04], c.Resources04, ProtocolTCP, 80⟩,
    ⟨[c.Recipe01, c.Recipe05], c.Resources05, ProtocolTCP, 80⟩,
    ⟨[c.Recipe06], c.Resources06, ProtocolTCP, 80⟩,
    ⟨[c.Recipe07], c.Resources07, ProtocolTCP, 80⟩,
    ⟨[c.Recipe01, c.Recipe08], c.Resources08, ProtocolTCP, 80⟩,
    ⟨[c.Recipe09], c.Resources09, ProtocolTCP, 5000⟩,
    ⟨[c.Recipe10], c.Resources10, ProtocolTCP, 80⟩,
    ⟨[c.Recipe11_1], c.Resources11_1, ProtocolTCP, 80⟩,
    ⟨[c.Recipe11_2], c.Resources11_2, ProtocolTCP, 53⟩,
    ⟨[c.Recipe12], c.Resources12, ProtocolTCP, 80⟩,
    ⟨[c.Recipe14], c.Resources14, ProtocolTCP, 80⟩ ]

/-- Lines 57-69: the body of the loop of `Run` for one recipe. -/
def Run.body (env : RecipeEnv NP PM RN RS TB) (recipe : Recipe RS) :
    Prog (St W (RecipeEvent PM)) Unit := do
  let table ← Recipe.RunProbe env recipe
  let model ← BuildNetworkPolicies env true (← Recipe.Policies env recipe)
  emit (RecipeEvent.ExplainTable model)
  emit (RecipeEvent.Printf "Policies:\n%s\n" (some (env.ExplainTable model)))
  emit (RecipeEvent.Printf "resources:\n%s\n" (some (env.RenderResources recipe.Resources)))
  emit (RecipeEvent.Printf "Results:\n%s\n" (some (env.RenderTable table)))
  emit (RecipeEvent.Printf "Ingress:\n%s\n" (some (env.RenderIngress table)))
  emit (RecipeEvent.Printf "Egress:\n%s\n" (some (env.RenderEgress table)))
  emit (RecipeEvent.Printf "\n\n\n" none)

/-- Lines 56-70: the loop of `Run` over a list of recipes. -/
def Run.loop (env : RecipeEnv NP PM RN RS TB) :
    List (Recipe RS) → Prog (St W (RecipeEvent PM)) Unit
  | [] => pure ()
  | recipe :: rest => do
      Run.body env recipe
      Run.loop env rest

/-- The function `Run`. -/
def Run (env : RecipeEnv NP PM RN RS TB) (c : RecipeConsts RS) :
    Prog (St W (RecipeEvent PM)) Unit :=
  Run.loop env (AllRecipes c)

/-- The parses of a list of YAML strings, in order; or the error of the first
string that does not parse. -/
def parseAll (env : RecipeEnv NP PM RN RS TB) : List String → Except Err (List NP)
  | [] => Except.ok []
  | yamlString :: rest =>
      match env.ParseYaml yamlString with
      | Except.error e => Except.error e
      | Except.ok netpol =>
          match parseAll env rest with
          | Except.error e => Except.error e
          | Except.ok policies => Except.ok (netpol :: policies)

/-- The policy model of a recipe as `RunProbe` and `Run` compute it:
`BuildNetworkPolicies(true, ...)` of the parsed `PolicyYamls`; or the way the
computation stops, at the first string that does not parse or at a policy set
that is rejected. -/
def recipeModel (env : RecipeEnv NP PM RN RS TB) (recipe : Recipe RS) : Except Halt PM :=
  match parseAll env recipe.PolicyYamls with
  | Except.error e => Except.error (Halt.died e)
  | Except.ok policies =>
      match env.BuildNetworkPolicies true policies with
      | Except.error e => Except.error (Halt.panicked e)
      | Except.ok model => Except.ok model

/-- The table `RunProbe` returns for a recipe whose policy model is `model`. -/
def recipeTable (env : RecipeEnv NP PM RN RS TB) (recipe : Recipe RS) (model : PM) : TB :=
  env.RunProbeForConfig (env.NewSimulatedRunner model { TimeoutSeconds := 5 })
    (NewProbeConfig (IntOrString.ofInt (toInt32 recipe.Port)) recipe.Protocol
      ProbeMode.ProbeModeServiceName)
    recipe.Resources

/-- The log calls of `intstr.FromInt` on a value: one error line when the value
overflows `int32`, none otherwise. -/
def overflowLog (val : Int) : List (RecipeEvent PM) :=
  if overflowsInt32 val then [RecipeEvent.Errorf "value: %d overflows int32\n%s\n" val] else []

/-- The calls of `RunProbe` for a recipe whose policy model is `model`. -/
def probeTrace (recipe : Recipe RS) (model : PM) : List (RecipeEvent PM) :=
  RecipeEvent.NewSimulatedRunner model { TimeoutSeconds := 5 } :: overflowLog recipe.Port

/-- The calls of one iteration of the loop of `Run` for a recipe whose policy
model is `model`. -/
def bodyTrace (env : RecipeEnv NP PM RN RS TB) (recipe : Recipe RS) (model : PM) :
    List (RecipeEvent PM) :=
  probeTrace recipe model ++
  [ RecipeEvent.ExplainTable model,
    RecipeEvent.Printf "Policies:\n%s\n" (some (env.ExplainTable model)),
    RecipeEvent.Printf "resources:\n%s\n" (some (env.RenderResources recipe.Resources)),
    RecipeEvent.Printf "Results:\n%s\n" (some (env.RenderTable (recipeTable env recipe model))),
    RecipeEvent.Printf "Ingress:\n%s\n" (some (env.RenderIngress (recipeTable env recipe model))),
    RecipeEvent.Printf "Egress:\n%s\n" (some (env.RenderEgress (recipeTable env recipe model))),
    RecipeEvent.Printf "\n\n\n" none ]

/-- The policy models handed to `NewSimulatedRunner` in a trace, in order. -/
def probedModels (trace : List (RecipeEvent PM)) : List PM :=
  trace.filterMap
    (fun ev => match ev with
      | RecipeEvent.NewSimulatedRunner model _ => some model
      | _ => none)

/-- The policy models `ExplainTable` is called on in a trace, in order. -/
def explainedModels (trace : List (RecipeEvent PM)) : List PM :=
  trace.filterMap
    (fun ev => match ev with
      | RecipeEvent.ExplainTable model => some model
      | _ => none)

/-- The output calls in a trace: the calls of `fmt.Printf` and of `klog.Errorf`. -/
def written (trace : List (RecipeEvent PM)) : List (RecipeEvent PM) :=
  trace.filter
    (fun ev => match ev with
      | RecipeEvent.Printf _ _ => true
      | RecipeEvent.Errorf _ _ => true
      | _ => false)

/-- The recipes the loop of `Run` gets through, each with its policy model: the
longest initial part of the list in which every policy model is computed. -/
def reached (env : RecipeEnv NP PM RN RS TB) : List (Recipe RS) → List (Recipe RS × PM)
  | [] => []
  | recipe :: rest =>
      match recipeModel env recipe with
      | Except.error _ => []
      | Except.ok model => (recipe, model) :: reached env rest

/-- The way the loop of `Run` stops early, if it does: at the first recipe whose
policy model is not computed. -/
def firstHalt (env : RecipeEnv NP PM RN RS TB) : List (Recipe RS) → Option Halt
  | [] => none
  | recipe :: rest =>
      match recipeModel env recipe with
      | Except.error h => some h
      | Except.ok _ => firstHalt env rest

/-- The packages `RunProbe` calls into with nothing assumed about them: every
call is given the world and returns the world after it, so that a call may read
input, write output or keep state between calls. -/
structure RecipeCalls (W NP PM RN RS TB : Type) where
  ParseYaml : String → W → Except Err NP × W
  BuildNetworkPolicies : Bool → List NP → W → Except Err PM × W
  NewSimulatedRunner : PM → JobBuilder → W → RN × W
  RunProbeForConfig : RN → ProbeConfig → RS → W → TB × W

/-- The collaborators are deterministic and do no input or output, as sections
4.6 and 5 of the specification have them: the value of every call is the same
in every world, and every call leaves the world as it was. -/
structure RecipeCalls.Pure (calls : RecipeCalls W NP PM RN RS TB) : Prop where
  ParseYaml : ∀ (y : String) (w w1 : W),
    (calls.ParseYaml y w).1 = (calls.ParseYaml y w1).1 ∧ (calls.ParseYaml y w).2 = w
  BuildNetworkPolicies : ∀ (simplify : Bool) (policies : List NP) (w w1 : W),
    (calls.BuildNetworkPolicies simplify policies w).1 =
        (calls.BuildNetworkPolicies simplify policies w1).1 ∧
      (calls.BuildNetworkPolicies simplify policies w).2 = w
  NewSimulatedRunner : ∀ (model : PM) (jobBuilder : JobBuilder) (w w1 : W),
    (calls.NewSimulatedRunner model jobBuilder w).1 =
        (calls.NewSimulatedRunner model jobBuilder w1).1 ∧
      (calls.NewSimulatedRunner model jobBuilder w).2 = w
  RunProbeForConfig : ∀ (runner : RN) (config : ProbeConfig) (resources : RS) (w w1 : W),
    (calls.RunProbeForConfig runner config resources w).1 =
        (calls.RunProbeForConfig runner config resources w1).1 ∧
      (calls.RunProbeForConfig runner config resources w).2 = w

/-- Lines 24-28 over collaborators that use the world: the loop of `Policies`. -/
def Recipe.Policies.inWorld.loop (calls : RecipeCalls W NP PM RN RS TB) :
    List String → List NP → Prog (St W (RecipeEvent PM)) (List NP)
  | [], policies => pure policies
  | yamlString :: rest, policies => do
      let netpol ← DoOrDie (← stepWorld (calls.ParseYaml yamlString))
      Recipe.Policies.inWorld.loop calls rest (policies ++ [netpol])

/-- The method `Recipe.Policies` over collaborators that use the world. -/
def Recipe.Policies.inWorld (calls : RecipeCalls W NP PM RN RS TB) (r : Recipe RS) :
    Prog (St W (RecipeEvent PM)) (List NP) :=
  Recipe.Policies.inWorld.loop calls r.PolicyYamls []

/-- The method `Recipe.RunProbe` over collaborators that use the world. -/
def Recipe.RunProbe.inWorld (calls : RecipeCalls W NP PM RN RS TB) (r : Recipe RS) :
    Prog (St W (RecipeEvent PM)) TB := do
  let policies ← Recipe.Policies.inWorld calls r
  let model ←
    match (← stepWorld (calls.BuildNetworkPolicies true policies)) with
    | Except.ok model => pure model
    | Except.error e => goPanic e
  let jobBuilder : JobBuilder := { TimeoutSeconds := 5 }
  emit (RecipeEvent.NewSimulatedRunner model jobBuilder)
  let runner ← stepWorld (calls.NewSimulatedRunner model jobBuilder)
  let port ← FromInt r.Port
  stepWorld (calls.RunProbeForConfig runner
    (NewProbeConfig port r.Protocol ProbeMode.ProbeModeServiceName) r.Resources)

/-- Collaborators given as functions, seen as collaborators that use the world:
they ignore it and leave it as it was. -/
def RecipeEnv.toCalls (env : RecipeEnv NP PM RN RS TB) : RecipeCalls W NP PM RN RS TB :=
  { ParseYaml := fun yamlString w => (env.ParseYaml yamlString, w)
    BuildNetworkPolicies := fun simplify policies w => (env.BuildNetworkPolicies simplify policies, w)
    NewSimulatedRunner := fun model jobBuilder w => (env.NewSimulatedRunner model jobBuilder, w)
    RunProbeForConfig := fun runner config resources w =>
      (env.RunProbeForConfig runner config resources, w) }

/-- The functions that collaborators using the world compute in one world; the
rendering functions, which `RunProbe` does not call, render nothing. -/
def RecipeCalls.freeze (calls : RecipeCalls W NP PM RN RS TB) (w : W) :
    RecipeEnv NP PM RN RS TB :=
  { ParseYaml := fun yamlString => (calls.ParseYaml yamlString w).1
    BuildNetworkPolicies := fun simplify policies =>
      (calls.BuildNetworkPolicies simplify policies w).1
    NewSimulatedRunner := fun model jobBuilder => (calls.NewSimulatedRunner model jobBuilder w).1
    RunProbeForConfig := fun runner config resources =>
      (calls.RunProbeForConfig runner config resources w).1
    ExplainTable := fun _ => ""
    RenderResources := fun _ => ""
    RenderTable := fun _ => ""
    RenderIngress := fun _ => ""
    RenderEgress := fun _ => "" }

end recipes

/-! ## The evaluation core, from sections 3 and 4 of the specification

The packages `matcher` and `probe` of the policy assistant are not among the
embedded sources. What the claims need of them is modelled here from the specification:
the data model (section 3), the selector algebra (4.1), the policy model
compiler (4.2), the evaluator (4.3) and the truth table builder (4.4).
-/

/-- Modelled from the spec: a label set, a mapping from string to string. -/
abbrev Labels := List (String × String)

/-- Modelled from the spec: the kinds of requirement of a label selector (4.1);
`Unsupported` stands for any operator outside the four. -/
inductive Operator where
  | In
  | NotIn
  | Exists
  | DoesNotExist
  | Unsupported (name : String)
  deriving DecidableEq, Repr

/-- Modelled from the spec: one requirement of a label selector (4.1). -/
structure Requirement where
  key : String
  operator : Operator
  values : List String
  deriving DecidableEq, Repr

/-- Modelled from the spec: a selector is a conjunction of requirements (4.1). -/
abbrev LabelSelector := List Requirement

/-- Modelled from the spec: whether a label set meets one requirement (4.1): key
equals one of a value set, key equals none of a value set, key exists, key
absent; an unsupported operator is a non-match. -/
def Requirement.holds (r : Requirement) (labels : Labels) : Bool :=
  match r.operator with
  | Operator.In =>
      match labels.lookup r.key with
      | some v => r.values.contains v
      | none => false
  | Operator.NotIn =>
      match labels.lookup r.key with
      | some v => !(r.values.contains v)
      | none => true
  | Operator.Exists => (labels.lookup r.key).isSome
  | Operator.DoesNotExist => (labels.lookup r.key).isNone
  | Operator.Unsupported _ => false

/-- Modelled from the spec: `MatchesLabels` (4.1). A selector with zero
requirements matches every label set. -/
def MatchesLabels (selectorExpr : LabelSelector) (labelSet : Labels) : Bool :=
  selectorExpr.all (fun r => r.holds labelSet)

/-- Modelled from the spec: an IPv4 CIDR, the base address as a number below
`2 ^ 32` and the number of leading bits that are fixed. -/
structure CIDR where
  base : Nat
  bits : Nat
  deriving DecidableEq, Repr

/-- Modelled from the spec: whether an address falls inside a CIDR. -/
def CIDR.contains (c : CIDR) (ip : Nat) : Bool :=
  ip / 2 ^ (32 - c.bits) == c.base / 2 ^ (32 - c.bits)

/-- Modelled from the spec: a named container port of a workload (section 3). -/
structure ContainerPort where
  name : String
  port : Int
  protocol : Protocol
  deriving DecidableEq, Repr

/-- Modelled from the spec: the identity of a workload, namespace name and
workload name. -/
abbrev WorkloadId := String × String

/-- Modelled from the spec: a workload (section 3). -/
structure Workload where
  namespaceName : String
  name : String
  labels : Labels
  ip : Nat
  ports : List ContainerPort
  deriving DecidableEq, Repr

/-- Modelled from the spec: the identity of a workload. -/
def Workload.id (w : Workload) : WorkloadId := (w.namespaceName, w.name)

/-- Modelled from the spec: a namespace (section 3). -/
structure Namespace where
  name : String
  labels : Labels
  deriving DecidableEq, Repr

/-- Modelled from the spec: the topology snapshot, namespaces and workloads. It
is also the model of `probe.Resources`. -/
structure Topology where
  namespaces : List Namespace
  workloads : List Workload
  deriving DecidableEq, Repr

/-- Modelled from the spec: the namespace a workload lives in; a namespace the
snapshot does not list has no labels. -/
def Topology.namespaceOf (topology : Topology) (w : Workload) : Namespace :=
  match topology.namespaces.find? (fun n => n.name == w.namespaceName) with
  | some n => n
  | none => { name := w.namespaceName, labels := [] }

/-- Modelled from the spec: a peer matcher (section 3), exactly one kind per
entry. -/
inductive PeerMatcher where
  | selectors (podSelector : Option LabelSelector) (namespaceSelector : Option LabelSelector)
  | ipBlock (cidr : CIDR) (excluded : List CIDR)
  deriving DecidableEq, Repr

/-- Modelled from the spec: `MatchesPeer` (4.1). For selectors both sub-selectors
must match and an absent one matches all; for an IP block the address is inside
the CIDR and outside every excluded CIDR. -/
def MatchesPeer (peerMatcher : PeerMatcher) (candidateWorkload : Workload)
    (candidateNamespace : Namespace) : Bool :=
  match peerMatcher with
  | PeerMatcher.selectors podSelector namespaceSelector =>
      (match podSelector with
        | some sel => MatchesLabels sel candidateWorkload.labels
        | none => true) &&
      (match namespaceSelector with
        | some sel => MatchesLabels sel candidateNamespace.labels
        | none => true)
  | PeerMatcher.ipBlock cidr excluded =>
      cidr.contains candidateWorkload.ip &&
        excluded.all (fun c => !(c.contains candidateWorkload.ip))

/-- Modelled from the spec: a port matcher (section 3): optional protocol,
optional numeric or named port. -/
structure PortMatcher where
  protocol : Option Protocol
  port : Option IntOrString
  deriving DecidableEq, Repr

/-- Modelled from the spec: whether a port entry matches a protocol and port
arriving at a destination (4.3). The protocol defaults to TCP and must be
equal; no port means all ports; a named port is resolved against the container
ports of the destination and does not match when it does not resolve. -/
def PortMatcher.admits (m : PortMatcher) (destination : Workload) (protocol : Protocol)
    (port : Int) : Bool :=
  (m.protocol.getD ProtocolTCP == protocol) &&
    (match m.port with
      | none => true
      | some (IntOrString.ofInt n) => n == port
      | some (IntOrString.ofString name) =>
          match destination.ports.find? (fun cp => cp.name == name) with
          | some cp => cp.port == port
          | none => false)

/-- Modelled from the spec: the two traffic directions. -/
inductive Direction where
  | ingress
  | egress
  deriving DecidableEq, Repr

/-- Modelled from the spec: a rule (section 3), a direction with a peer list and
a port list. -/
structure Rule where
  direction : Direction
  peers : List PeerMatcher
  ports : List PortMatcher
  deriving DecidableEq, Repr

/-- Modelled from the spec: a rule matches if any listed peer matches and any
listed port matches; an empty peer list matches all peers and an empty port
list matches all ports and protocols (sections 3 and 4.3). -/
def Rule.permits (rule : Rule) (peer : Workload) (peerNamespace : Namespace)
    (destination : Workload) (protocol : Protocol) (port : Int) : Bool :=
  (rule.peers.isEmpty || rule.peers.any (fun m => MatchesPeer m peer peerNamespace)) &&
    (rule.ports.isEmpty || rule.ports.any (fun m => m.admits destination protocol port))

/-- Modelled from the spec: a raw declarative policy (4.2): a namespace, a target
selector, declared types and rules. The namespace or the selector may be
missing, which makes the policy invalid. -/
structure RawPolicy where
  namespaceName : Option String
  target : Option LabelSelector
  types : List Direction
  rules : List Rule
  deriving DecidableEq, Repr

/-- Modelled from the spec: a compiled policy entry (section 3). -/
structure CompiledEntry where
  namespaceName : String
  target : LabelSelector
  types : List Direction
  ingress : List Rule
  egress : List Rule
  deriving DecidableEq, Repr

/-- Modelled from the spec: the policy model (section 3). The mapping from a
workload to its isolation flags and rules is computed from the entries by
`PolicyModel.isolated` and `PolicyModel.rules`. -/
structure PolicyModel where
  entries : List CompiledEntry
  deriving DecidableEq, Repr

/-- Modelled from the spec: compile one raw policy, rejecting a policy without
namespace or without target selector (4.2). -/
def compileEntry (p : RawPolicy) : Except Err CompiledEntry :=
  match p.namespaceName, p.target with
  | some ns, some sel =>
      Except.ok
        { namespaceName := ns
          target := sel
          types := p.types
          ingress := p.rules.filter (fun r => r.direction == Direction.ingress)
          egress := p.rules.filter (fun r => r.direction == Direction.egress) }
  | none, _ => Except.error "validation error: policy without namespace"
  | _, none => Except.error "validation error: policy without target selector"

/-- Modelled from the spec: `Compile` (4.2), failing on the first invalid policy. -/
def Compile : List RawPolicy → Except Err PolicyModel
  | [] => Except.ok { entries := [] }
  | p :: rest =>
      match compileEntry p with
      | Except.error e => Except.error e
      | Except.ok entry =>
          match Compile rest with
          | Except.error e => Except.error e
          | Except.ok model => Except.ok { entries := entry :: model.entries }

/-- Modelled from the spec: the entries that target a workload: same namespace
and a target selector matching its labels (4.2). -/
def PolicyModel.entriesFor (model : PolicyModel) (w : Workload) : List CompiledEntry :=
  model.entries.filter
    (fun e => e.namespaceName == w.namespaceName && MatchesLabels e.target w.labels)

/-- Modelled from the spec: a workload is isolated for a direction iff at least
one entry with that declared type targets it (section 3). -/
def PolicyModel.isolated (model : PolicyModel) (w : Workload) (d : Direction) : Bool :=
  (model.entriesFor w).any (fun e => e.types.contains d)

/-- Modelled from the spec: the union of the rules of a direction over all
entries that target the workload and declare that direction (4.2). -/
def PolicyModel.rules (model : PolicyModel) (w : Workload) (d : Direction) : List Rule :=
  ((model.entriesFor w).filter (fun e => e.types.contains d)).flatMap
    (fun e => match d with
      | Direction.ingress => e.ingress
      | Direction.egress => e.egress)

/-- Modelled from the spec: a traffic sample (section 3). -/
structure TrafficSample where
  source : Workload
  destination : Workload
  protocol : Protocol
  port : Int
  deriving DecidableEq, Repr

/-- Modelled from the spec: the verdict of a cell (section 3). -/
inductive Verdict where
  | Allowed
  | Denied
  | Unknown
  deriving DecidableEq, Repr

/-- Modelled from the spec: the egress check at the source (4.3, step 1). -/
def egressPermits (sample : TrafficSample) (model : PolicyModel) (topology : Topology) : Bool :=
  !(model.isolated sample.source Direction.egress) ||
    (model.rules sample.source Direction.egress).any
      (fun r => r.permits sample.destination (topology.namespaceOf sample.destination)
        sample.destination sample.protocol sample.port)

/-- Modelled from the spec: the ingress check at the destination (4.3, step 2). -/
def ingressPermits (sample : TrafficSample) (model : PolicyModel) (topology : Topology) : Bool :=
  !(model.isolated sample.destination Direction.ingress) ||
    (model.rules sample.destination Direction.ingress).any
      (fun r => r.permits sample.source (topology.namespaceOf sample.source)
        sample.destination sample.protocol sample.port)

/-- Modelled from the spec: `Evaluate` (4.3): allowed iff both checks permit. -/
def Evaluate (sample : TrafficSample) (policyModel : PolicyModel) (topology : Topology) :
    Verdict :=
  if egressPermits sample policyModel topology && ingressPermits sample policyModel topology then
    Verdict.Allowed
  else
    Verdict.Denied

/-- Modelled from the spec: one cell of a truth table. -/
structure Cell where
  source : WorkloadId
  destination : WorkloadId
  verdict : Verdict
  deriving DecidableEq, Repr

/-- Modelled from the spec: a truth table (section 3) for one port and protocol:
the source and destination orderings and the cells, row by row. -/
structure TruthTable where
  sources : List WorkloadId
  destinations : List WorkloadId
  cells : List Cell
  deriving DecidableEq, Repr

/-- Modelled from the spec: the verdict a table holds for a source and a
destination, if it has that cell. -/
def TruthTable.verdict (table : TruthTable) (source destination : WorkloadId) : Option Verdict :=
  (table.cells.find? (fun c => c.source == source && c.destination == destination)).map
    (fun c => c.verdict)

/-- Modelled from the spec: the ordered pairs of workloads a table has a cell
for (4.4): the full cross product, without the self-pairs when `ignoreLoopback`
is set. -/
def tablePairs (topology : Topology) (ignoreLoopback : Bool) : List (Workload × Workload) :=
  (topology.workloads.flatMap (fun a => topology.workloads.map (fun b => (a, b)))).filter
    (fun ab => !(ignoreLoopback && ab.1.id == ab.2.id))

/-- Modelled from the spec: `Build` of 4.4, in the form `BuildExpectedTable` that
the interface list gives it, which names the model: one call of the evaluator
per cell. -/
def Build (model : PolicyModel) (topology : Topology) (port : Int) (protocol : Protocol)
    (ignoreLoopback : Bool) : TruthTable :=
  { sources := topology.workloads.map Workload.id
    destinations := topology.workloads.map Workload.id
    cells := (tablePairs topology ignoreLoopback).map
      (fun ab =>
        { source := ab.1.id
          destination := ab.2.id
          verdict := Evaluate
            { source := ab.1, destination := ab.2, protocol := protocol, port := port }
            model topology }) }

/-! ## The simulated probe runner, from section 4.6 of the specification -/

/-- Modelled from the spec: the simulated probe runner (4.6), which is not in
the embedded sources: it holds the compiled policy model it evaluates against. -/
structure SimulatedRunner where
  policies : PolicyModel
  jobBuilder : JobBuilder
  deriving DecidableEq, Repr

/-- Modelled from the spec: `RunProbeForConfig` of the simulated runner (4.6):
it re-invokes the evaluator and the table builder against its policy model, over
the full cross product of the resources. A numeric probe port is the port of
every sample; a named probe port is resolved against the container ports of
each destination, and the cell is unknown when it does not resolve. -/
def SimulatedRunner.RunProbeForConfig (runner : SimulatedRunner) (config : ProbeConfig)
    (resources : Topology) : TruthTable :=
  match config.Port with
  | IntOrString.ofInt port => Build runner.policies resources port config.Protocol false
  | IntOrString.ofString name =>
      { sources := resources.workloads.map Workload.id
        destinations := resources.workloads.map Workload.id
        cells := (tablePairs resources false).map
          (fun ab =>
            { source := ab.1.id
              destination := ab.2.id
              verdict :=
                match ab.2.ports.find? (fun cp => cp.name == name) with
                | some cp => Evaluate
                    { source := ab.1, destination := ab.2, protocol := config.Protocol,
                      port := cp.port }
                    runner.policies resources
                | none => Verdict.Unknown }) }

/-- Modelled from the spec: the collaborators of `recipe.go` that belong to the
evaluation core: `BuildNetworkPolicies` is `Compile` (4.2), which has no
simplify flag, and the runner is the simulated runner (4.6). YAML parsing and
rendering stay parameters, taken from `base`. -/
def specRecipeEnv (base : RecipeEnv RawPolicy PolicyModel SimulatedRunner Topology TruthTable) :
    RecipeEnv RawPolicy PolicyModel SimulatedRunner Topology TruthTable :=
  { base with
    BuildNetworkPolicies := fun _ policies => Compile policies
    NewSimulatedRunner := fun model jobBuilder => { policies := model, jobBuilder := jobBuilder }
    RunProbeForConfig := SimulatedRunner.RunProbeForConfig }

/-! ## Concrete collaborators and inputs, for evaluation on examples

The `kube` and `connectivity` packages are not among the embedded sources and
the specification does not describe them. The collaborators below are examples
on which the embedded command can be run; nothing is claimed about the real
packages through them. -/

/-- A policy that selects every workload of namespace `x` and declares ingress
with no rule. -/
def denyAllIngress : RawPolicy :=
  { namespaceName := some "x", target := some [], types := [Direction.ingress], rules := [] }

/-- An example world for the probe command: the policies installed in a cluster
and the files on disk. -/
structure Cluster where
  policies : List RawPolicy
  files : List (String × String)
  deriving DecidableEq, Repr

/-- An example interpreter: it holds a topology. -/
structure ExampleInterpreter where
  topology : Topology
  deriving DecidableEq, Repr

/-- An example topology: one namespace per name and, in each, one workload per
pod name, serving every port on every protocol. A namespace is labelled with
its name, a workload with its pod name, addresses count up from `10.0.0.1` and
a container port is named after its number and protocol. -/
def defaultTopology (namespaces pods : List String) (ports : List Int)
    (protocols : List Protocol) : Topology :=
  { namespaces := namespaces.map (fun ns => { name := ns, labels := [("ns", ns)] })
    workloads := (namespaces.flatMap (fun ns => pods.map (fun pod => (ns, pod)))).enum.map
      (fun entry =>
        { namespaceName := entry.2.1
          name := entry.2.2
          labels := [("pod", entry.2.2)]
          ip := 167772161 + entry.1
          ports := ports.flatMap (fun port => protocols.map (fun protocol =>
            { name := "serve-" ++ toString port ++ "-" ++ protocol.toLower
              port := port
              protocol := protocol })) }) }

/-- The effect of one action of a test case on the policies of the example
world: reading changes nothing, creating a policy adds it. -/
def applyAction (policies : List RawPolicy) : Action RawPolicy → List RawPolicy
  | Action.ReadNetworkPolicies _ => policies
  | Action.CreatePolicy policy => policies ++ [policy]

/-- Test case execution of the example interpreter: it applies the actions of
the test case to the example world, compiles the installed policies and builds
the table over the full cross product for the port and protocol of the test
case. The result is the table, or the validation error. -/
def exampleExecuteTestCase (interpreter : ExampleInterpreter) (testCase : TestCase RawPolicy)
    (cluster : Cluster) : Except Err TruthTable × Cluster :=
  let policies := testCase.Actions.foldl applyAction cluster.policies
  (match Compile policies with
    | Except.ok model =>
        Except.ok (Build model interpreter.topology testCase.Port testCase.Protocol false)
    | Except.error e => Except.error e,
   { cluster with policies := policies })

/-- Example collaborators of the probe command: the client is the context name,
the three protocol names parse, the interpreter is the example interpreter on
the example topology, files are looked up in the example world, and the one
YAML text that parses is `deny-all`. -/
def exampleProbeEnv :
    ProbeEnv Cluster String ExampleInterpreter (Except Err TruthTable) RawPolicy :=
  { NewKubernetesForContext := fun context _ => Except.ok context
    ParseProtocol := fun protocol =>
      if protocol = "TCP" ∨ protocol = "UDP" ∨ protocol = "SCTP" then Except.ok protocol
      else Except.error "invalid protocol"
    NewInterpreter := fun _ namespaces pods ports protocols _ _ cluster =>
      (Except.ok { topology := defaultTopology namespaces pods ports protocols }, cluster)
    ReadFile := fun path cluster =>
      match cluster.files.lookup path with
      | some bytes => Except.ok bytes
      | none => Except.error "no such file"
    Unmarshal := fun bytes =>
      if bytes = "deny-all" then Except.ok denyAllIngress else Except.error "invalid yaml"
    ExecuteTestCase := exampleExecuteTestCase }

/-- A cluster with no policy installed and one policy file on disk. -/
def exampleCluster : Cluster :=
  { policies := [], files := [("policy.yaml", "deny-all")] }

/-- The start state of the probe command on the example cluster. -/
def exampleStart : St Cluster (Event (Except Err TruthTable) RawPolicy) :=
  { world := exampleCluster, trace := [] }

/-- Arguments with the loopback flag set: namespace `x`, pods `a` and `b`, and
the flag defaults for the rest (port 80 on TCP, no policy path). -/
def loopbackArgs : ProbeArgs :=
  { SetupProbeCommand_defaults with Namespaces := ["x"], Pods := ["a", "b"], IgnoreLoopback := true }

/-- Arguments with an empty protocol list: namespace `x`, pod `a`, port 80. -/
def noProtocolArgs : ProbeArgs :=
  { SetupProbeCommand_defaults with Namespaces := ["x"], Pods := ["a"], Protocols := [] }

/-- Arguments with a policy path, two ports and two protocols. -/
def policyArgs : ProbeArgs :=
  { SetupProbeCommand_defaults with
    Namespaces := ["x"], Pods := ["a"], Ports := [80, 81], Protocols := ["TCP", "UDP"],
    PolicyPath := "policy.yaml" }

/-- Arguments with a policy path: namespace `x`, pod `a`, port 80 on TCP. -/
def policyPathArgs : ProbeArgs :=
  { SetupProbeCommand_defaults with
    Namespaces := ["x"], Pods := ["a"], PolicyPath := "policy.yaml" }

/-- Modelled from the spec: whether a table has a self-pair cell, one whose
source is its destination. -/
def TruthTable.hasSelfPair (table : TruthTable) : Bool :=
  table.cells.any (fun c => c.source == c.destination)

/-- Collaborators for examples of `recipe.go`: the one YAML text that parses is
`deny-all`, and nothing is rendered. -/
def exampleRecipeEnv : RecipeEnv RawPolicy PolicyModel SimulatedRunner Topology TruthTable :=
  specRecipeEnv
    { ParseYaml := fun yamlString =>
        if yamlString = "deny-all" then Except.ok denyAllIngress else Except.error "invalid yaml"
      BuildNetworkPolicies := fun _ _ => Except.error "no compiler"
      NewSimulatedRunner := fun model jobBuilder => { policies := model, jobBuilder := jobBuilder }
      RunProbeForConfig := fun _ _ _ => { sources := [], destinations := [], cells := [] }
      ExplainTable := fun _ => ""
      RenderResources := fun _ => ""
      RenderTable := fun _ => ""
      RenderIngress := fun _ => ""
      RenderEgress := fun _ => "" }

/-- Constants for examples: every recipe is the text `deny-all` and every
resources value is the example topology. -/
def exampleConsts : RecipeConsts Topology :=
  { Recipe01 := "deny-all", Recipe02 := "deny-all", Recipe02A := "deny-all",
    Recipe03 := "deny-all", Recipe04 := "deny-all", Recipe05 := "deny-all",
    Recipe06 := "deny-all", Recipe07 := "deny-all", Recipe08 := "deny-all",
    Recipe09 := "deny-all", Recipe10 := "deny-all", Recipe11_1 := "deny-all",
    Recipe11_2 := "deny-all", Recipe12 := "deny-all", Recipe14 := "deny-all",
    Resources01 := defaultTopology ["x"] ["a", "b"] [80] [ProtocolTCP],
    Resources02 := defaultTopology ["x"] ["a", "b"] [80] [ProtocolTCP],
    Resources02A := defaultTopology ["x"] ["a", "b"] [80] [ProtocolTCP],
    Resources03 := defaultTopology ["x"] ["a", "b"] [80] [ProtocolTCP],
    Resources04 := defaultTopology ["x"] ["a", "b"] [80] [ProtocolTCP],
    Resources05 := defaultTopology ["x"] ["a", "b"] [80] [ProtocolTCP],
    Resources06 := defaultTopology ["x"] ["a", "b"] [80] [ProtocolTCP],
    Resources07 := defaultTopology ["x"] ["a", "b"] [80] [ProtocolTCP],
    Resources08 := defaultTopology ["x"] ["a", "b"] [80] [ProtocolTCP],
    Resources09 := defaultTopology ["x"] ["a", "b"] [5000] [ProtocolTCP],
    Resources10 := defaultTopology ["x"] ["a", "b"] [80] [ProtocolTCP],
    Resources11_1 := defaultTopology ["x"] ["a", "b"] [80] [ProtocolTCP],
    Resources11_2 := defaultTopology ["x"] ["a", "b"] [53] [ProtocolTCP],
    Resources12 := defaultTopology ["x"] ["a", "b"] [80] [ProtocolTCP],
    Resources14 := defaultTopology ["x"] ["a", "b"] [80] [ProtocolTCP] }

/-- Collaborators whose runner keeps state: the world counts the probes run so
far and the table returned is that count. They are not free of state, and two
calls in a row return different tables. -/
def countingCalls : RecipeCalls Nat Unit Unit Unit Unit Nat :=
  { ParseYaml := fun _ w => (Except.ok (), w)
    BuildNetworkPolicies := fun _ _ w => (Except.ok (), w)
    NewSimulatedRunner := fun _ _ w => ((), w)
    RunProbeForConfig := fun _ _ _ w => (w, w + 1) }

/-- Two workloads `a` and `b` in namespace `x`. -/
def exampleResources : Topology := defaultTopology ["x"] ["a", "b"] [80] [ProtocolTCP]

/-! ## Basic facts about programs -/

instance instLawfulMonadProg {σ : Type} : LawfulMonad (Prog σ) :=
  LawfulMonad.mk' (Prog σ)
    (fun x => by
      funext s
      show Prog.bind (pure id) (fun f => Prog.bind x (fun a => pure (f a))) s = x s
      simp only [Prog.bind]
      show (match x s with
        | Res.ok a s1 => Res.ok a s1
        | Res.halt h s1 => Res.halt h s1) = x s
      cases x s <;> rfl)
    (fun x f => rfl)
    (fun x f g => by
      funext s
      show Prog.bind (Prog.bind x f) g s = Prog.bind x (fun a => Prog.bind (f a) g) s
      simp only [Prog.bind]
      cases x s <;> rfl)

@[simp] theorem Prog.bind_apply {σ α β : Type} (x : Prog σ α) (f : α → Prog σ β) (s : σ) :
    (x >>= f) s = match x s with
      | Res.ok a s1 => f a s1
      | Res.halt h s1 => Res.halt h s1 := rfl

@[simp] theorem Prog.map_apply {σ α β : Type} (f : α → β) (x : Prog σ α) (s : σ) :
    (f <$> x) s = match x s with
      | Res.ok a s1 => Res.ok (f a) s1
      | Res.halt h s1 => Res.halt h s1 := rfl

@[simp] theorem Prog.pure_apply {σ α : Type} (a : α) (s : σ) :
    (pure a : Prog σ α) s = Res.ok a s := rfl

@[simp] theorem emit_apply {W Ev : Type} (ev : Ev) (s : St W Ev) :
    emit ev s = Res.ok () { world := s.world, trace := s.trace ++ [ev] } := rfl

@[simp] theorem readWorld_apply {W Ev α : Type} (f : W → α) (s : St W Ev) :
    readWorld f s = Res.ok (f s.world) s := rfl

@[simp] theorem stepWorld_apply {W Ev α : Type} (f : W → α × W) (s : St W Ev) :
    stepWorld f s = Res.ok (f s.world).1 { world := (f s.world).2, trace := s.trace } := rfl

@[simp] theorem goPanic_apply {σ α : Type} (msg : Err) (s : σ) :
    (goPanic msg : Prog σ α) s = Res.halt (Halt.panicked msg) s := rfl

@[simp] theorem DoOrDie_ok {σ α : Type} (a : α) (s : σ) :
    (DoOrDie (Except.ok a) : Prog σ α) s = Res.ok a s := rfl

@[simp] theorem DoOrDie_error {σ α : Type} (e : Err) (s : σ) :
    (DoOrDie (Except.error e) : Prog σ α) s = Res.halt (Halt.died e) s := rfl

section probe_facts
variable {W K I R NP : Type}

theorem RunProbeCommand_eq_setup_then_loop (env : ProbeEnv W K I R NP) (args : ProbeArgs) :
    RunProbeCommand env args =
      RunProbeCommand.setup env args >>= fun r =>
          forPorts env r.1 { Noisy := args.Noisy, IgnoreLoopback := args.IgnoreLoopback }
            r.2.1 r.2.2 args.Ports := by
  unfold RunProbeCommand RunProbeCommand.setup
  funext s
  split_ifs <;> simp only [bind_assoc, pure_bind]

theorem executeAll_append (env : ProbeEnv W K I R NP) (interpreter : I)
    (l1 l2 : List (TestCase NP)) (w : W) :
    executeAll env interpreter (l1 ++ l2) w =
      ((executeAll env interpreter l1 w).1 ++
          (executeAll env interpreter l2 (executeAll env interpreter l1 w).2).1,
        (executeAll env interpreter l2 (executeAll env interpreter l1 w).2).2) := by
  induction l1 generalizing w with
  | nil => simp [executeAll]
  | cons tc rest ih => simp [executeAll, ih]

theorem executeAll_length (env : ProbeEnv W K I R NP) (interpreter : I)
    (l : List (TestCase NP)) (w : W) :
    (executeAll env interpreter l w).1.length = l.length := by
  induction l generalizing w with
  | nil => simp [executeAll]
  | cons tc rest ih => simp [executeAll, ih]

theorem loopTrace_append (printer : Printer) (c1 c2 : List (TestCase NP)) (r1 r2 : List R)
    (h : c1.length = r1.length) :
    loopTrace printer (c1 ++ c2) (r1 ++ r2) = loopTrace printer c1 r1 ++ loopTrace printer c2 r2 := by
  simp [loopTrace, List.zip_append h]

theorem testCases_cons (actions : List (Action NP)) (port : Int) (ports : List Int)
    (protocols : List Protocol) :
    testCases actions (port :: ports) protocols =
      protocols.map (fun protocol => NewSingleStepTestCase "one-off probe" port protocol actions) ++
        testCases actions ports protocols := by
  simp [testCases, List.product_cons, List.map_map, Function.comp_def]

theorem testCases_length (actions : List (Action NP)) (ports : List Int)
    (protocols : List Protocol) :
    (testCases actions ports protocols).length = ports.length * protocols.length := by
  simp [testCases, List.length_product]

theorem forProtocols_run (env : ProbeEnv W K I R NP) (interpreter : I) (printer : Printer)
    (actions : List (Action NP)) (port : Int) (protocols : List Protocol)
    (s : St W (Event R NP)) :
    forProtocols env interpreter printer actions port protocols s =
      Res.ok ()
        { world := (executeAll env interpreter
            (protocols.map (fun protocol =>
              NewSingleStepTestCase "one-off probe" port protocol actions)) s.world).2
          trace := s.trace ++ loopTrace printer
            (protocols.map (fun protocol =>
              NewSingleStepTestCase "one-off probe" port protocol actions))
            (executeAll env interpreter
              (protocols.map (fun protocol =>
                NewSingleStepTestCase "one-off probe" port protocol actions)) s.world).1 } := by
  induction protocols generalizing s with
  | nil => simp [forProtocols, executeAll, loopTrace]
  | cons protocol rest ih =>
    simp [forProtocols, ih, executeAll, loopTrace]

theorem forPorts_run (env : ProbeEnv W K I R NP) (interpreter : I) (printer : Printer)
    (actions : List (Action NP)) (protocols : List Protocol) (ports : List Int)
    (s : St W (Event R NP)) :
    forPorts env interpreter printer actions protocols ports s =
      Res.ok ()
        { world := (executeAll env interpreter (testCases actions ports protocols) s.world).2
          trace := s.trace ++ loopTrace printer (testCases actions ports protocols)
            (executeAll env interpreter (testCases actions ports protocols) s.world).1 } := by
  induction ports generalizing s with
  | nil => simp [forPorts, executeAll, loopTrace, testCases]
  | cons port rest ih =>
    simp only [forPorts, Prog.bind_apply, forProtocols_run, ih, testCases_cons, executeAll_append]
    rw [loopTrace_append]
    · simp
    · simp [executeAll_length]

theorem parseProtocols_of_forall₂ (env : ProbeEnv W K I R NP) (strs : List String)
    (ps acc : List Protocol) (s : St W (Event R NP))
    (h : List.Forall₂ (fun str p => env.ParseProtocol str = Except.ok p) strs ps) :
    parseProtocols env strs acc s =
      Res.ok (acc ++ ps)
        { world := s.world, trace := s.trace ++ strs.map Event.ParseProtocol } := by
  induction h generalizing acc s with
  | nil => simp [parseProtocols]
  | cons hd _ ih => simp [parseProtocols, hd, ih]

theorem parseProtocols_ok_inv (env : ProbeEnv W K I R NP) (strs : List String)
    (ps acc : List Protocol) (s s1 : St W (Event R NP))
    (h : parseProtocols env strs acc s = Res.ok ps s1) :
    ∃ ps1, ps = acc ++ ps1 ∧
      List.Forall₂ (fun str p => env.ParseProtocol str = Except.ok p) strs ps1 ∧
      s1 = { world := s.world, trace := s.trace ++ strs.map Event.ParseProtocol } := by
  induction strs generalizing acc s with
  | nil =>
    simp [parseProtocols] at h
    exact ⟨[], by simp [h.1], List.Forall₂.nil, by simp [← h.2]⟩
  | cons str rest ih =>
    simp only [parseProtocols, Prog.bind_apply, emit_apply] at h
    cases hp : env.ParseProtocol str with
    | error e => simp [hp] at h
    | ok p =>
      simp only [hp, DoOrDie_ok] at h
      obtain ⟨ps1, h1, h2, h3⟩ := ih _ _ h
      exact ⟨p :: ps1, by simp [h1], List.Forall₂.cons hp h2, by simp [h3]⟩

theorem parseProtocols_state (env : ProbeEnv W K I R NP) (strs : List String)
    (acc : List Protocol) (s : St W (Event R NP)) :
    ∃ t, (parseProtocols env strs acc s).state = { world := s.world, trace := s.trace ++ t } ∧
      ∀ ev ∈ t, ∃ x, ev = Event.ParseProtocol x := by
  induction strs generalizing acc s with
  | nil => exact ⟨[], by simp [parseProtocols, Res.state], by simp⟩
  | cons str rest ih =>
    simp only [parseProtocols, Prog.bind_apply, emit_apply]
    cases hp : env.ParseProtocol str with
    | error e =>
      exact ⟨[Event.ParseProtocol str], by simp [Res.state], by simp⟩
    | ok p =>
      simp only [DoOrDie_ok]
      obtain ⟨t, h1, h2⟩ := ih (acc ++ [p])
        { world := s.world, trace := s.trace ++ [Event.ParseProtocol str] }
      refine ⟨Event.ParseProtocol str :: t, by simp [h1], ?_⟩
      intro ev hev
      rcases List.mem_cons.1 hev with h | h
      · exact ⟨str, h⟩
      · exact h2 ev h

theorem setup_ok_of_passes (env : ProbeEnv W K I R NP) (args : ProbeArgs)
    (s : St W (Event R NP)) (interpreter : I) (protocols : List Protocol) (w1 : W)
    (policy : Option (String × NP))
    (h : SetupPasses env args s.world interpreter protocols w1 policy) :
    RunProbeCommand.setup env args s =
      Res.ok (interpreter, probeActions args policy, protocols)
        { world := w1
          trace := s.trace ++ setupTrace args protocols (policy.map Prod.fst) } := by
  obtain ⟨hns, hpods, ⟨k, hk, hi⟩, hp, hl⟩ := h
  unfold RunProbeCommand.setup
  have h0 : (args.Namespaces.length == 0 || args.Pods.length == 0) = false := by
    cases hn : args.Namespaces with
    | nil => exact absurd hn hns
    | cons a l =>
      cases hq : args.Pods with
      | nil => exact absurd hq hpods
      | cons b l2 => simp
  simp only [h0, Bool.false_eq_true, if_false, Prog.bind_apply, Prog.pure_apply, emit_apply,
    readWorld_apply, hk, DoOrDie_ok, stepWorld_apply]
  rw [parseProtocols_of_forall₂ env args.Protocols protocols [] _ hp]
  simp only [List.nil_append, hi, DoOrDie_ok]
  cases policy with
  | none =>
    simp only at hl
    simp [hl, probeActions, setupTrace]
  | some bp =>
    obtain ⟨bytes, kubePolicy⟩ := bp
    simp only at hl
    obtain ⟨h1, h2, h3⟩ := hl
    simp [h1, h2, h3, probeActions, setupTrace]

theorem setup_passes_of_ok (env : ProbeEnv W K I R NP) (args : ProbeArgs)
    (s s1 : St W (Event R NP)) (interpreter : I) (actions : List (Action NP))
    (protocols : List Protocol)
    (h : RunProbeCommand.setup env args s = Res.ok (interpreter, actions, protocols) s1) :
    ∃ policy, SetupPasses env args s.world interpreter protocols s1.world policy ∧
      actions = probeActions args policy ∧
      s1.trace = s.trace ++ setupTrace args protocols (policy.map Prod.fst) := by
  unfold RunProbeCommand.setup at h
  by_cases h0 : (args.Namespaces.length == 0 || args.Pods.length == 0) = true
  · simp [h0] at h
  · have hns : args.Namespaces ≠ [] := by
      intro hn; simp [hn] at h0
    have hpods : args.Pods ≠ [] := by
      intro hn; simp [hn] at h0
    simp only [h0, Bool.false_eq_true, if_false, Prog.bind_apply, Prog.pure_apply, emit_apply,
      readWorld_apply] at h
    cases hk : env.NewKubernetesForContext args.KubeContext s.world with
    | error e => simp [hk] at h
    | ok k =>
      simp only [hk, DoOrDie_ok] at h
      cases hp : parseProtocols env args.Protocols []
          { world := s.world, trace := s.trace ++ [Event.NewKubernetesForContext args.KubeContext] } with
      | halt e s2 => simp [hp] at h
      | ok ps s2 =>
        obtain ⟨ps1, hps, hall, hs2⟩ := parseProtocols_ok_inv env _ _ _ _ _ hp
        simp only [List.nil_append] at hps
        subst hps
        subst hs2
        simp only [hp, stepWorld_apply] at h
        cases hi : env.NewInterpreter k args.Namespaces args.Pods args.Ports ps false 0 s.world with
        | mk ri w1 =>
          cases ri with
          | error e => simp [hi] at h
          | ok interp =>
            simp only [hi, DoOrDie_ok] at h
            by_cases hpath : args.PolicyPath = ""
            · simp [hpath] at h
              obtain ⟨⟨h1, h2, h3⟩, h4⟩ := h
              subst h1 h2 h3 h4
              refine ⟨none, ⟨hns, hpods, ⟨k, hk, hi⟩, hall, hpath⟩, ?_, ?_⟩
              · simp [probeActions]
              · simp [setupTrace]
            · simp only [hpath, bne_iff_ne, ne_eq, not_false_eq_true, if_true, Prog.bind_apply,
                emit_apply, readWorld_apply, Prog.pure_apply] at h
              cases hr : env.ReadFile args.PolicyPath w1 with
              | error e => simp [hr] at h
              | ok bytes =>
                simp only [hr, DoOrDie_ok] at h
                cases hu : env.Unmarshal bytes with
                | error e => simp [hu] at h
                | ok pol =>
                  simp [hu] at h
                  obtain ⟨⟨h1, h2, h3⟩, h4⟩ := h
                  subst h1 h2 h3 h4
                  refine ⟨some (bytes, pol), ⟨hns, hpods, ⟨k, hk, hi⟩, hall, hpath, hr, hu⟩, ?_, ?_⟩
                  · simp [probeActions]
                  · simp [setupTrace]

theorem setup_state (env : ProbeEnv W K I R NP) (args : ProbeArgs) (s : St W (Event R NP)) :
    ∃ t, (RunProbeCommand.setup env args s).state.trace = s.trace ++ t ∧
      (∀ ev ∈ t, ev.isSetup = true) ∧
      (args.PolicyPath = "" → ∀ path, Event.ReadFile path ∉ t) := by
  unfold RunProbeCommand.setup
  by_cases h0 : (args.Namespaces.length == 0 || args.Pods.length == 0) = true
  · exact ⟨[], by simp [h0, Res.state], by simp, by simp⟩
  · simp only [h0, Bool.false_eq_true, if_false, Prog.bind_apply, Prog.pure_apply, emit_apply,
      readWorld_apply]
    cases hk : env.NewKubernetesForContext args.KubeContext s.world with
    | error e =>
      exact ⟨[Event.NewKubernetesForContext args.KubeContext], by simp [Res.state],
        by simp [Event.isSetup], by simp⟩
    | ok k =>
      simp only [DoOrDie_ok]
      obtain ⟨t, ht, hev⟩ := parseProtocols_state env args.Protocols []
        { world := s.world, trace := s.trace ++ [Event.NewKubernetesForContext args.KubeContext] }
      have hsetup : ∀ ev ∈ t, Event.isSetup ev = true := by
        intro ev h
        obtain ⟨x, hx⟩ := hev ev h
        simp [hx, Event.isSetup]
      have hnoread : ∀ path, (Event.ReadFile path : Event R NP) ∉ t := by
        intro path h
        obtain ⟨x, hx⟩ := hev _ h
        simp at hx
      cases hp : parseProtocols env args.Protocols []
          { world := s.world, trace := s.trace ++ [Event.NewKubernetesForContext args.KubeContext] } with
      | halt e s2 =>
        rw [hp] at ht
        simp only [Res.state] at ht
        refine ⟨Event.NewKubernetesForContext args.KubeContext :: t, by simp [ht, Res.state], ?_, ?_⟩
        · intro ev h
          rcases List.mem_cons.1 h with h | h
          · simp [h, Event.isSetup]
          · exact hsetup ev h
        · intro _ path h
          rcases List.mem_cons.1 h with h | h
          · simp at h
          · exact hnoread path h
      | ok ps s2 =>
        rw [hp] at ht
        simp only [Res.state] at ht
        subst ht
        simp only [stepWorld_apply]
        cases hi : env.NewInterpreter k args.Namespaces args.Pods args.Ports ps false 0 s.world with
        | mk ri w1 =>
          cases ri with
          | error e =>
            refine ⟨Event.NewKubernetesForContext args.KubeContext :: (t ++
              [Event.NewInterpreter args.Namespaces args.Pods args.Ports ps false 0]),
              by simp [Res.state], ?_, ?_⟩
            · intro ev h
              simp only [List.mem_cons, List.mem_append, List.mem_singleton, List.not_mem_nil, or_false] at h
              rcases h with h | h | h
              · simp [h, Event.isSetup]
              · exact hsetup ev h
              · simp [h, Event.isSetup]
            · intro _ path h
              simp only [List.mem_cons, List.mem_append, List.mem_singleton, List.not_mem_nil, or_false] at h
              rcases h with h | h | h
              · simp at h
              · exact hnoread path h
              · simp at h
          | ok interp =>
            simp only [DoOrDie_ok]
            by_cases hpath : args.PolicyPath = ""
            · refine ⟨Event.NewKubernetesForContext args.KubeContext :: (t ++
                [Event.NewInterpreter args.Namespaces args.Pods args.Ports ps false 0]),
                by simp [hpath, Res.state], ?_, ?_⟩
              · intro ev h
                simp only [List.mem_cons, List.mem_append, List.mem_singleton, List.not_mem_nil, or_false] at h
                rcases h with h | h | h
                · simp [h, Event.isSetup]
                · exact hsetup ev h
                · simp [h, Event.isSetup]
              · intro _ path h
                simp only [List.mem_cons, List.mem_append, List.mem_singleton, List.not_mem_nil, or_false] at h
                rcases h with h | h | h
                · simp at h
                · exact hnoread path h
                · simp at h
            · simp only [hpath, bne_iff_ne, ne_eq, not_false_eq_true, if_true, Prog.bind_apply,
                emit_apply, readWorld_apply, Prog.pure_apply]
              have hmem : ∀ (extra : List (Event R NP)), (∀ ev ∈ extra, Event.isSetup ev = true) →
                  ∀ ev ∈ Event.NewKubernetesForContext args.KubeContext :: (t ++
                    Event.NewInterpreter args.Namespaces args.Pods args.Ports ps false 0 :: extra),
                  Event.isSetup ev = true := by
                intro extra hex ev h
                simp only [List.mem_cons, List.mem_append] at h
                rcases h with h | h | h | h
                · simp [h, Event.isSetup]
                · exact hsetup ev h
                · simp [h, Event.isSetup]
                · exact hex ev h
              cases hr : env.ReadFile args.PolicyPath w1 with
              | error e =>
                exact ⟨Event.NewKubernetesForContext args.KubeContext :: (t ++
                  Event.NewInterpreter args.Namespaces args.Pods args.Ports ps false 0 ::
                    [Event.ReadFile args.PolicyPath]),
                  by simp [Res.state], hmem _ (by simp [Event.isSetup]),
                  fun h => False.elim h⟩
              | ok bytes =>
                simp only [DoOrDie_ok]
                cases hu : env.Unmarshal bytes with
                | error e =>
                  exact ⟨Event.NewKubernetesForContext args.KubeContext :: (t ++
                    Event.NewInterpreter args.Namespaces args.Pods args.Ports ps false 0 ::
                      [Event.ReadFile args.PolicyPath, Event.Unmarshal bytes]),
                    by simp [Res.state], hmem _ (by simp [Event.isSetup]),
                    fun h => False.elim h⟩
                | ok pol =>
                  exact ⟨Event.NewKubernetesForContext args.KubeContext :: (t ++
                    Event.NewInterpreter args.Namespaces args.Pods args.Ports ps false 0 ::
                      [Event.ReadFile args.PolicyPath, Event.Unmarshal bytes]),
                    by simp [Res.state], hmem _ (by simp [Event.isSetup]),
                    fun h => False.elim h⟩

theorem executed_append (t1 t2 : List (Event R NP)) :
    executed (t1 ++ t2) = executed t1 ++ executed t2 := by
  simp [executed, List.filterMap_append]

theorem printersUsed_append (t1 t2 : List (Event R NP)) :
    printersUsed (t1 ++ t2) = printersUsed t1 ++ printersUsed t2 := by
  simp [printersUsed, List.filterMap_append]

theorem executed_of_isSetup (t : List (Event R NP)) (h : ∀ ev ∈ t, ev.isSetup = true) :
    executed t = [] := by
  induction t with
  | nil => rfl
  | cons ev rest ih =>
    have h1 := h ev (List.mem_cons_self _ _)
    have h2 := ih (fun e he => h e (List.mem_cons_of_mem _ he))
    cases ev <;> simp_all [executed, Event.isSetup]

theorem printersUsed_of_isSetup (t : List (Event R NP)) (h : ∀ ev ∈ t, ev.isSetup = true) :
    printersUsed t = [] := by
  induction t with
  | nil => rfl
  | cons ev rest ih =>
    have h1 := h ev (List.mem_cons_self _ _)
    have h2 := ih (fun e he => h e (List.mem_cons_of_mem _ he))
    cases ev <;> simp_all [printersUsed, Event.isSetup]

theorem setupTrace_isSetup (args : ProbeArgs) (protocols : List Protocol)
    (policyBytes : Option String) :
    ∀ ev ∈ (setupTrace args protocols policyBytes : List (Event R NP)), ev.isSetup = true := by
  cases policyBytes <;> simp [setupTrace, Event.isSetup, or_imp, forall_and]

theorem executed_loopTrace (printer : Printer) (cases : List (TestCase NP)) (results : List R) :
    executed (loopTrace printer cases results) = cases.zip results := by
  induction cases generalizing results with
  | nil => simp [loopTrace, executed]
  | cons c rest ih =>
    cases results with
    | nil => simp [loopTrace, executed]
    | cons r rs =>
      have := ih rs
      simp only [loopTrace, executed] at this ⊢
      simp [List.filterMap_cons, this]

theorem printersUsed_loopTrace (printer : Printer) (cases : List (TestCase NP))
    (results : List R) :
    ∀ p ∈ printersUsed (loopTrace printer cases results), p = printer := by
  induction cases generalizing results with
  | nil => simp [loopTrace, printersUsed]
  | cons c rest ih =>
    cases results with
    | nil => simp [loopTrace, printersUsed]
    | cons r rs =>
      have := ih rs
      simp only [loopTrace, printersUsed] at this ⊢
      simp only [List.zip_cons_cons, List.flatMap_cons, List.cons_append, List.nil_append,
        List.filterMap_cons, List.mem_cons]
      intro p hp
      rcases hp with hp | hp
      · exact hp
      · exact this p hp

theorem mem_loopTrace (printer : Printer) (cases : List (TestCase NP)) (results : List R)
    (ev : Event R NP) (h : ev ∈ loopTrace printer cases results) :
    (∃ tc r, ev = Event.ExecuteTestCase tc r ∧ tc ∈ cases) ∨
      (∃ r, ev = Event.PrintTestCaseResult printer r) := by
  simp only [loopTrace, List.mem_flatMap, List.mem_cons, List.not_mem_nil, or_false] at h
  obtain ⟨cr, hcr, h⟩ := h
  rcases h with h | h
  · exact Or.inl ⟨cr.1, cr.2, h, (List.of_mem_zip hcr).1⟩
  · exact Or.inr ⟨cr.2, h⟩

theorem mem_testCases (actions : List (Action NP)) (ports : List Int) (protocols : List Protocol)
    (tc : TestCase NP) (h : tc ∈ testCases actions ports protocols) : tc.Actions = actions := by
  simp only [testCases, List.mem_map] at h
  obtain ⟨pp, _, h⟩ := h
  simp [← h, NewSingleStepTestCase]

theorem testCases_ports_protocols (actions : List (Action NP)) (ports : List Int)
    (protocols : List Protocol) :
    (testCases actions ports protocols).map (fun tc => (tc.Port, tc.Protocol)) =
      ports ×ˢ protocols := by
  simp [testCases, List.map_map, Function.comp_def, NewSingleStepTestCase]

end probe_facts

/-! ## Facts about `recipe.go` -/

section recipe_facts
variable {W NP PM RN RS TB : Type}

theorem Policies_loop_eq (env : RecipeEnv NP PM RN RS TB) (yamls : List String) (acc : List NP)
    (s : St W (RecipeEvent PM)) :
    Recipe.Policies.loop env yamls acc s =
      match parseAll env yamls with
      | Except.ok policies => Res.ok (acc ++ policies) s
      | Except.error e => Res.halt (Halt.died e) s := by
  induction yamls generalizing acc with
  | nil => simp [Recipe.Policies.loop, parseAll]
  | cons y rest ih =>
    simp only [Recipe.Policies.loop, Prog.bind_apply, parseAll]
    cases hy : env.ParseYaml y with
    | error e => simp
    | ok p =>
      simp only [DoOrDie_ok, ih]
      cases hr : parseAll env rest with
      | error e => simp
      | ok ps => simp

theorem Policies_eq (env : RecipeEnv NP PM RN RS TB) (r : Recipe RS)
    (s : St W (RecipeEvent PM)) :
    Recipe.Policies env r s =
      match parseAll env r.PolicyYamls with
      | Except.ok policies => Res.ok policies s
      | Except.error e => Res.halt (Halt.died e) s := by
  simp [Recipe.Policies, Policies_loop_eq]

theorem parseAll_ok_iff_forall₂ (env : RecipeEnv NP PM RN RS TB) (yamls : List String)
    (policies : List NP) :
    parseAll env yamls = Except.ok policies ↔
      List.Forall₂ (fun y p => env.ParseYaml y = Except.ok p) yamls policies := by
  induction yamls generalizing policies with
  | nil =>
    simp only [parseAll, Except.ok.injEq]
    constructor
    · intro h; subst h; exact List.Forall₂.nil
    · intro h; cases h; rfl
  | cons y rest ih =>
    simp only [parseAll]
    cases hy : env.ParseYaml y with
    | error e =>
      constructor
      · intro h; simp at h
      · intro h
        cases h with
        | cons h1 _ => simp [hy] at h1
    | ok p =>
      cases hr : parseAll env rest with
      | error e =>
        constructor
        · intro h; simp at h
        · intro h
          cases h with
          | cons h1 h2 =>
            have := (ih _).2 h2
            simp [hr] at this
      | ok ps =>
        simp only [Except.ok.injEq]
        constructor
        · intro h
          subst h
          exact List.Forall₂.cons hy ((ih ps).1 hr)
        · intro h
          cases h with
          | cons h1 h2 =>
            have h3 := (ih _).2 h2
            rw [hr] at h3
            rw [hy] at h1
            simp only [Except.ok.injEq] at h1 h3
            rw [h1, h3]

theorem parseAll_error_of_mem (env : RecipeEnv NP PM RN RS TB) (yamls : List String)
    (h : ∃ y ∈ yamls, ∃ e, env.ParseYaml y = Except.error e) :
    ∃ y ∈ yamls, ∃ e, env.ParseYaml y = Except.error e ∧
      parseAll env yamls = Except.error e := by
  induction yamls with
  | nil => simp at h
  | cons y rest ih =>
    simp only [parseAll]
    cases hy : env.ParseYaml y with
    | error e => exact ⟨y, List.mem_cons_self _ _, e, hy, rfl⟩
    | ok p =>
      have h1 : ∃ y ∈ rest, ∃ e, env.ParseYaml y = Except.error e := by
        obtain ⟨y1, hmem, e, he⟩ := h
        rcases List.mem_cons.1 hmem with h2 | h2
        · rw [h2, hy] at he; simp at he
        · exact ⟨y1, h2, e, he⟩
      obtain ⟨y1, hmem, e, he, hm⟩ := ih h1
      exact ⟨y1, List.mem_cons_of_mem _ hmem, e, he, by simp [hm]⟩

theorem BuildNetworkPolicies_eq (env : RecipeEnv NP PM RN RS TB) (simplify : Bool)
    (policies : List NP) (s : St W (RecipeEvent PM)) :
    BuildNetworkPolicies env simplify policies s =
      match env.BuildNetworkPolicies simplify policies with
      | Except.ok model => Res.ok model s
      | Except.error e => Res.halt (Halt.panicked e) s := by
  unfold BuildNetworkPolicies
  cases env.BuildNetworkPolicies simplify policies <;> rfl

theorem FromInt_apply {W PM : Type} (val : Int) (s : St W (RecipeEvent PM)) :
    FromInt val s =
      Res.ok (IntOrString.ofInt (toInt32 val))
        { world := s.world, trace := s.trace ++ overflowLog val } := by
  unfold FromInt overflowLog
  by_cases h : overflowsInt32 val = true
  · simp [h]
  · simp [h]

theorem toInt32_of_fits (val : Int) (h : overflowsInt32 val = false) : toInt32 val = val := by
  simp only [overflowsInt32, Bool.or_eq_false_iff, decide_eq_false_iff_not, not_lt] at h
  unfold toInt32
  omega

theorem RunProbe_eq (env : RecipeEnv NP PM RN RS TB) (r : Recipe RS)
    (s : St W (RecipeEvent PM)) :
    Recipe.RunProbe env r s =
      match recipeModel env r with
      | Except.ok model =>
          Res.ok (recipeTable env r model)
            { world := s.world, trace := s.trace ++ probeTrace r model }
      | Except.error h => Res.halt h s := by
  simp only [Recipe.RunProbe, Prog.bind_apply, Policies_eq, recipeModel]
  cases hp : parseAll env r.PolicyYamls with
  | error e => rfl
  | ok policies =>
    simp only [BuildNetworkPolicies_eq]
    cases hb : env.BuildNetworkPolicies true policies with
    | error e => rfl
    | ok model => simp [FromInt_apply, probeTrace, recipeTable]

theorem Run_body_eq (env : RecipeEnv NP PM RN RS TB) (recipe : Recipe RS)
    (s : St W (RecipeEvent PM)) :
    Run.body env recipe s =
      match recipeModel env recipe with
      | Except.ok model =>
          Res.ok () { world := s.world, trace := s.trace ++ bodyTrace env recipe model }
      | Except.error h => Res.halt h s := by
  simp only [Run.body, Prog.bind_apply, RunProbe_eq, Policies_eq]
  unfold recipeModel
  cases hp : parseAll env recipe.PolicyYamls with
  | error e => rfl
  | ok policies =>
    simp only [BuildNetworkPolicies_eq]
    cases hb : env.BuildNetworkPolicies true policies with
    | error e => rfl
    | ok model => simp [bodyTrace, hp, hb, recipeModel]

end recipe_facts

/-! ## The claims about `RunProbeCommand` -/

section claims_probe
variable {W K I R NP : Type}

/-- C7: when `Namespaces` or `Pods` is empty, `RunProbeCommand` panics with the
error "found 0 namespaces or pods, must have at least 1 of each" in the state it
was started in: no client has been created, no protocol parsed and no test case
executed, since no call has been added to the trace and the world is unchanged. -/
theorem RunProbeCommand_rejects_empty_topology (env : ProbeEnv W K I R NP) (args : ProbeArgs)
    (s : St W (Event R NP)) (h : args.Namespaces = [] ∨ args.Pods = []) :
    RunProbeCommand env args s =
      Res.halt (Halt.panicked "found 0 namespaces or pods, must have at least 1 of each") s := by
  unfold RunProbeCommand
  rcases h with h | h <;> simp [h]

/-- Witness for C7: the flag defaults with an empty pod list, on the example
cluster. -/
theorem RunProbeCommand_rejects_empty_topology_witness :
    (({ SetupProbeCommand_defaults with Pods := [] } : ProbeArgs).Namespaces = [] ∨
      ({ SetupProbeCommand_defaults with Pods := [] } : ProbeArgs).Pods = []) ∧
    RunProbeCommand exampleProbeEnv { SetupProbeCommand_defaults with Pods := [] } exampleStart =
      Res.halt (Halt.panicked "found 0 namespaces or pods, must have at least 1 of each")
        exampleStart :=
  ⟨Or.inr rfl,
    RunProbeCommand_rejects_empty_topology exampleProbeEnv
      { SetupProbeCommand_defaults with Pods := [] } exampleStart (Or.inr rfl)⟩

/-- C4: when validation and setup pass, `RunProbeCommand` completes, and after
the setup calls its trace is exactly: for each test case of `testCases` (one per
port and protocol, every protocol for the first port, then the next port) the
call of `ExecuteTestCase` immediately followed by `PrintTestCaseResult` on the
result just produced. `ExecuteTestCase` is called `len(Ports) * len(Protocols)`
times, on the (port, protocol) pairs in port-major order. -/
theorem RunProbeCommand_one_test_case_per_port_protocol (env : ProbeEnv W K I R NP)
    (args : ProbeArgs) (w w1 : W) (interpreter : I) (protocols : List Protocol)
    (policy : Option (String × NP))
    (h : SetupPasses env args w interpreter protocols w1 policy) :
    RunProbeCommand env args { world := w, trace := [] } =
      Res.ok ()
        { world :=
            (executeAll env interpreter
              (testCases (probeActions args policy) args.Ports protocols) w1).2
          trace := setupTrace args protocols (policy.map Prod.fst) ++
            loopTrace { Noisy := args.Noisy, IgnoreLoopback := args.IgnoreLoopback }
              (testCases (probeActions args policy) args.Ports protocols)
              (executeAll env interpreter
                (testCases (probeActions args policy) args.Ports protocols) w1).1 } ∧
    (executed (RunProbeCommand env args { world := w, trace := [] }).state.trace).length =
      args.Ports.length * args.Protocols.length ∧
    (executed (RunProbeCommand env args { world := w, trace := [] }).state.trace).map
        (fun cr => (cr.1.Port, cr.1.Protocol)) = args.Ports ×ˢ protocols ∧
    protocols.length = args.Protocols.length := by
  have hlen : protocols.length = args.Protocols.length := (List.Forall₂.length_eq h.parsed).symm
  have hrun : RunProbeCommand env args { world := w, trace := [] } =
      Res.ok ()
        { world :=
            (executeAll env interpreter
              (testCases (probeActions args policy) args.Ports protocols) w1).2
          trace := setupTrace args protocols (policy.map Prod.fst) ++
            loopTrace { Noisy := args.Noisy, IgnoreLoopback := args.IgnoreLoopback }
              (testCases (probeActions args policy) args.Ports protocols)
              (executeAll env interpreter
                (testCases (probeActions args policy) args.Ports protocols) w1).1 } := by
    rw [RunProbeCommand_eq_setup_then_loop]
    simp only [Prog.bind_apply]
    rw [setup_ok_of_passes env args { world := w, trace := [] } interpreter protocols w1 policy h]
    simp [forPorts_run]
  have hexec : executed (RunProbeCommand env args { world := w, trace := [] }).state.trace =
      (testCases (probeActions args policy) args.Ports protocols).zip
        (executeAll env interpreter
          (testCases (probeActions args policy) args.Ports protocols) w1).1 := by
    rw [hrun]
    simp only [Res.state, executed_append, executed_loopTrace,
      executed_of_isSetup _ (setupTrace_isSetup args protocols (policy.map Prod.fst)),
      List.nil_append]
  refine ⟨hrun, ?_, ?_, hlen⟩
  · rw [hexec, List.length_zip, executeAll_length, Nat.min_self, testCases_length, hlen]
  · rw [hexec, ← testCases_ports_protocols (probeActions args policy) args.Ports protocols]
    have hz : ((testCases (probeActions args policy) args.Ports protocols).zip
        (executeAll env interpreter
          (testCases (probeActions args policy) args.Ports protocols) w1).1).map Prod.fst =
        testCases (probeActions args policy) args.Ports protocols :=
      List.map_fst_zip _ _ (by rw [executeAll_length])
    conv_rhs => rw [← hz]
    rw [List.map_map]
    rfl

/-- Witness for C4: two ports, two protocols and a policy path on the example
cluster: setup passes and four test cases are executed. -/
theorem RunProbeCommand_one_test_case_per_port_protocol_witness :
    SetupPasses exampleProbeEnv policyArgs exampleCluster
      { topology := defaultTopology ["x"] ["a"] [80, 81] ["TCP", "UDP"] } ["TCP", "UDP"]
      exampleCluster (some ("deny-all", denyAllIngress)) ∧
    (executed (RunProbeCommand exampleProbeEnv policyArgs
      { world := exampleCluster, trace := [] }).state.trace).length = 2 * 2 ∧
    (executed (RunProbeCommand exampleProbeEnv policyArgs
      { world := exampleCluster, trace := [] }).state.trace).map
        (fun cr => (cr.1.Port, cr.1.Protocol)) =
      [(80, "TCP"), (80, "UDP"), (81, "TCP"), (81, "UDP")] :=
  have h : SetupPasses exampleProbeEnv policyArgs exampleCluster
      { topology := defaultTopology ["x"] ["a"] [80, 81] ["TCP", "UDP"] } ["TCP", "UDP"]
      exampleCluster (some ("deny-all", denyAllIngress)) :=
    { namespaces := by decide
      pods := by decide
      client := ⟨"", rfl, rfl⟩
      parsed := List.Forall₂.cons rfl (List.Forall₂.cons rfl List.Forall₂.nil)
      loaded := ⟨by decide, rfl, rfl⟩ }
  ⟨h,
    (RunProbeCommand_one_test_case_per_port_protocol exampleProbeEnv policyArgs exampleCluster
      exampleCluster _ _ _ h).2.1,
    (RunProbeCommand_one_test_case_per_port_protocol exampleProbeEnv policyArgs exampleCluster
      exampleCluster _ _ _ h).2.2.1⟩

/-- C8: every test case `RunProbeCommand` executes was given the action list of
lines 73-84: setup passed with some loaded policy (or none) and the list is
`probeActions` of it. With an empty `PolicyPath` that is exactly
`[ReadNetworkPolicies(Namespaces)]` and the trace has no file read; otherwise it
is exactly `[ReadNetworkPolicies(Namespaces), CreatePolicy(p)]` with `p`
unmarshalled from the bytes read at `PolicyPath`. `ReadNetworkPolicies` is
always first and the list has at most two actions. -/
theorem RunProbeCommand_actions (env : ProbeEnv W K I R NP) (args : ProbeArgs) (w : W)
    (testCase : TestCase NP) (result : R)
    (h : Event.ExecuteTestCase testCase result ∈
      (RunProbeCommand env args { world := w, trace := [] }).state.trace) :
    (∃ interpreter protocols w1 policy,
      SetupPasses env args w interpreter protocols w1 policy ∧
      testCase.Actions = probeActions args policy ∧
      (args.PolicyPath ≠ "" → ∃ bytes kubePolicy,
        env.ReadFile args.PolicyPath w1 = Except.ok bytes ∧
        env.Unmarshal bytes = Except.ok kubePolicy ∧
        testCase.Actions =
          [Action.ReadNetworkPolicies args.Namespaces, Action.CreatePolicy kubePolicy])) ∧
    (args.PolicyPath = "" →
      testCase.Actions = [Action.ReadNetworkPolicies args.Namespaces] ∧
      ∀ path, Event.ReadFile path ∉
        (RunProbeCommand env args { world := w, trace := [] }).state.trace) ∧
    testCase.Actions.head? = some (Action.ReadNetworkPolicies args.Namespaces) ∧
    testCase.Actions.length ≤ 2 := by
  rw [RunProbeCommand_eq_setup_then_loop] at h ⊢
  simp only [Prog.bind_apply] at h ⊢
  obtain ⟨t, ht, hsetup, hnoread⟩ := setup_state env args { world := w, trace := [] }
  cases hs : RunProbeCommand.setup env args { world := w, trace := [] } with
  | halt e s1 =>
    rw [hs] at h ht
    simp only [Res.state, List.nil_append] at h ht
    rw [ht] at h
    have := hsetup _ h
    simp [Event.isSetup] at this
  | ok r s1 =>
    obtain ⟨interpreter, actions, protocols⟩ := r
    rw [hs] at h ht
    simp only [Res.state, List.nil_append] at ht
    simp only [forPorts_run, Res.state] at h ⊢
    obtain ⟨policy, hpass, hact, htrace⟩ := setup_passes_of_ok env args _ _ _ _ _ hs
    have hmem : testCase ∈ testCases actions args.Ports protocols := by
      rcases List.mem_append.1 h with h1 | h1
      · rw [ht] at h1
        have := hsetup _ h1
        simp [Event.isSetup] at this
      · rcases mem_loopTrace _ _ _ _ h1 with ⟨tc, r, heq, hin⟩ | ⟨r, heq⟩
        · simp only [Event.ExecuteTestCase.injEq] at heq
          rw [heq.1]
          exact hin
        · simp at heq
    have hta : testCase.Actions = probeActions args policy := by
      rw [mem_testCases _ _ _ _ hmem, hact]
    refine ⟨⟨interpreter, protocols, s1.world, policy, hpass, hta, ?_⟩, ?_, ?_, ?_⟩
    · intro hpath
      have hl := hpass.loaded
      cases policy with
      | none => exact absurd hl hpath
      | some bp =>
        obtain ⟨bytes, kubePolicy⟩ := bp
        exact ⟨bytes, kubePolicy, hl.2.1, hl.2.2, by rw [hta]; rfl⟩
    · intro hpath
      have hl := hpass.loaded
      cases policy with
      | none =>
        refine ⟨by rw [hta]; rfl, ?_⟩
        intro path hin
        rcases List.mem_append.1 hin with h1 | h1
        · rw [ht] at h1
          exact hnoread hpath path h1
        · rcases mem_loopTrace _ _ _ _ h1 with ⟨tc, r, heq, _⟩ | ⟨r, heq⟩
          · simp at heq
          · simp at heq
      | some bp =>
        obtain ⟨bytes, kubePolicy⟩ := bp
        exact absurd hpath hl.1
    · rw [hta]
      cases policy with
      | none => rfl
      | some bp => rfl
    · rw [hta]
      cases policy with
      | none => simp [probeActions]
      | some bp => simp [probeActions]

/-- Witness for C8: the test case of the run with a policy path on the example
cluster. -/
theorem RunProbeCommand_actions_witness :
    Event.ExecuteTestCase
        (NewSingleStepTestCase "one-off probe" 80 "TCP"
          [Action.ReadNetworkPolicies ["x"], Action.CreatePolicy denyAllIngress])
        (Except.ok
          { sources := [("x", "a")]
            destinations := [("x", "a")]
            cells := [{ source := ("x", "a"), destination := ("x", "a"),
                        verdict := Verdict.Denied }] }) ∈
      (RunProbeCommand exampleProbeEnv policyPathArgs
        { world := exampleCluster, trace := [] }).state.trace ∧
    (NewSingleStepTestCase "one-off probe" 80 "TCP"
      [Action.ReadNetworkPolicies ["x"], Action.CreatePolicy denyAllIngress]).Actions.length ≤ 2 :=
  have ht : (RunProbeCommand exampleProbeEnv policyPathArgs
      { world := exampleCluster, trace := [] }).state.trace =
      [ Event.NewKubernetesForContext "",
        Event.ParseProtocol "TCP",
        Event.NewInterpreter ["x"] ["a"] [80] ["TCP"] false 0,
        Event.ReadFile "policy.yaml",
        Event.Unmarshal "deny-all",
        Event.ExecuteTestCase
          (NewSingleStepTestCase "one-off probe" 80 "TCP"
            [Action.ReadNetworkPolicies ["x"], Action.CreatePolicy denyAllIngress])
          (Except.ok
            { sources := [("x", "a")]
              destinations := [("x", "a")]
              cells := [{ source := ("x", "a"), destination := ("x", "a"),
                          verdict := Verdict.Denied }] }),
        Event.PrintTestCaseResult { Noisy := false, IgnoreLoopback := false }
          (Except.ok
            { sources := [("x", "a")]
              destinations := [("x", "a")]
              cells := [{ source := ("x", "a"), destination := ("x", "a"),
                          verdict := Verdict.Denied }] }) ] := rfl
  have h : Event.ExecuteTestCase
        (NewSingleStepTestCase "one-off probe" 80 "TCP"
          [Action.ReadNetworkPolicies ["x"], Action.CreatePolicy denyAllIngress])
        (Except.ok
          { sources := [("x", "a")]
            destinations := [("x", "a")]
            cells := [{ source := ("x", "a"), destination := ("x", "a"),
                        verdict := Verdict.Denied }] }) ∈
      (RunProbeCommand exampleProbeEnv policyPathArgs
        { world := exampleCluster, trace := [] }).state.trace := by
    rw [ht]
    simp
  ⟨h, (RunProbeCommand_actions exampleProbeEnv policyPathArgs exampleCluster _ _ h).2.2.2⟩

/-- C2: the code does not do what the claim says. With a namespace, a pod and an
empty `Protocols` list, `RunProbeCommand` makes no check of the protocols: it
never panics on its arguments, and once the client is created it calls
`NewInterpreter` with the empty protocol list. It stops only when one of its
collaborators returns an error; when validation and setup pass it returns
normally, and in every case no test case is executed and nothing is printed. -/
theorem RunProbeCommand_empty_protocols_not_checked (env : ProbeEnv W K I R NP)
    (args : ProbeArgs) (w : W)
    (hns : args.Namespaces ≠ []) (hpods : args.Pods ≠ []) (hprotocols : args.Protocols = []) :
    (∀ msg, (RunProbeCommand env args { world := w, trace := [] }).halted ≠
      some (Halt.panicked msg)) ∧
    executed (RunProbeCommand env args { world := w, trace := [] }).state.trace = [] ∧
    printersUsed (RunProbeCommand env args { world := w, trace := [] }).state.trace = [] ∧
    (∀ kubernetes, env.NewKubernetesForContext args.KubeContext w = Except.ok kubernetes →
      Event.NewInterpreter args.Namespaces args.Pods args.Ports [] false 0 ∈
        (RunProbeCommand env args { world := w, trace := [] }).state.trace) ∧
    (∀ e, (RunProbeCommand env args { world := w, trace := [] }).halted = some (Halt.died e) →
      env.NewKubernetesForContext args.KubeContext w = Except.error e ∨
      (∃ kubernetes, env.NewKubernetesForContext args.KubeContext w = Except.ok kubernetes ∧
        (env.NewInterpreter kubernetes args.Namespaces args.Pods args.Ports [] false 0 w).1 =
          Except.error e) ∨
      (∃ w1, env.ReadFile args.PolicyPath w1 = Except.error e) ∨
      (∃ bytes, env.Unmarshal bytes = Except.error e)) ∧
    (∀ interpreter w1 policy, SetupPasses env args w interpreter [] w1 policy →
      RunProbeCommand env args { world := w, trace := [] } =
        Res.ok () { world := w1, trace := setupTrace args [] (policy.map Prod.fst) }) := by
  have h0 : (args.Namespaces.length == 0 || args.Pods.length == 0) = false := by
    cases hn : args.Namespaces with
    | nil => exact absurd hn hns
    | cons a l =>
      cases hq : args.Pods with
      | nil => exact absurd hq hpods
      | cons b l2 => simp
  have hlast : ∀ interpreter w1 policy, SetupPasses env args w interpreter [] w1 policy →
      RunProbeCommand env args { world := w, trace := [] } =
        Res.ok () { world := w1, trace := setupTrace args [] (policy.map Prod.fst) } := by
    intro interpreter w1 policy h
    rw [RunProbeCommand_eq_setup_then_loop]
    simp only [Prog.bind_apply]
    rw [setup_ok_of_passes env args { world := w, trace := [] } interpreter [] w1 policy h]
    simp [forPorts_run, testCases, executeAll, loopTrace]
  refine ⟨?_, ?_, ?_, ?_, ?_, hlast⟩ <;>
  · rw [RunProbeCommand_eq_setup_then_loop]
    simp only [Prog.bind_apply, RunProbeCommand.setup, h0, hprotocols, parseProtocols,
      Bool.false_eq_true, if_false, Prog.pure_apply, emit_apply, readWorld_apply,
      stepWorld_apply, List.nil_append]
    cases hk : env.NewKubernetesForContext args.KubeContext w with
    | error e => simp [Res.halted, Res.state, executed, printersUsed, hk]
    | ok k =>
      simp only [DoOrDie_ok]
      cases hi : env.NewInterpreter k args.Namespaces args.Pods args.Ports [] false 0 w with
      | mk ri w1 =>
        cases ri with
        | error e => simp [Res.halted, Res.state, executed, printersUsed, hi]
        | ok interp =>
          simp only [DoOrDie_ok]
          by_cases hpath : args.PolicyPath = ""
          · simp [hpath, forPorts_run, testCases, executeAll, loopTrace, Res.halted, Res.state,
              executed, printersUsed]
          · simp only [hpath, bne_iff_ne, ne_eq, not_false_eq_true, if_true, Prog.bind_apply,
              emit_apply, readWorld_apply, Prog.pure_apply]
            cases hr : env.ReadFile args.PolicyPath w1 with
            | error e =>
              simp only [DoOrDie_error, Res.halted, Res.state]
              first
                | (intro e1 he1
                   simp only [Option.some.injEq, Halt.died.injEq] at he1
                   subst he1
                   exact Or.inr (Or.inr (Or.inl ⟨w1, hr⟩)))
                | simp [executed, printersUsed]
            | ok bytes =>
              simp only [DoOrDie_ok]
              cases hu : env.Unmarshal bytes with
              | error e =>
                simp only [DoOrDie_error, Res.halted, Res.state]
                first
                  | (intro e1 he1
                     simp only [Option.some.injEq, Halt.died.injEq] at he1
                     subst he1
                     exact Or.inr (Or.inr (Or.inr ⟨bytes, hu⟩)))
                  | simp [executed, printersUsed]
              | ok pol =>
                simp [forPorts_run, testCases, executeAll, loopTrace, Res.halted, Res.state,
                  executed, printersUsed]

/-- Witness for C2: namespace `x`, pod `a`, port 80 and an empty protocol list on
the example cluster: the command returns normally after creating the client and
the interpreter, with no test case executed. -/
theorem RunProbeCommand_empty_protocols_not_checked_witness :
    noProtocolArgs.Namespaces ≠ [] ∧ noProtocolArgs.Pods ≠ [] ∧ noProtocolArgs.Protocols = [] ∧
    SetupPasses exampleProbeEnv noProtocolArgs exampleCluster
      { topology := defaultTopology ["x"] ["a"] [80] [] } [] exampleCluster none ∧
    RunProbeCommand exampleProbeEnv noProtocolArgs { world := exampleCluster, trace := [] } =
      Res.ok ()
        { world := exampleCluster
          trace := [ Event.NewKubernetesForContext "",
                     Event.NewInterpreter ["x"] ["a"] [80] [] false 0 ] } ∧
    executed (RunProbeCommand exampleProbeEnv noProtocolArgs
      { world := exampleCluster, trace := [] }).state.trace = [] :=
  have h : SetupPasses exampleProbeEnv noProtocolArgs exampleCluster
      { topology := defaultTopology ["x"] ["a"] [80] [] } [] exampleCluster none :=
    { namespaces := by decide
      pods := by decide
      client := ⟨"", rfl, rfl⟩
      parsed := List.Forall₂.nil
      loaded := rfl }
  have r := RunProbeCommand_empty_protocols_not_checked exampleProbeEnv noProtocolArgs
    exampleCluster (by decide) (by decide) rfl
  ⟨by decide, by decide, rfl, h, r.2.2.2.2.2 _ _ _ h, r.2.1⟩

theorem executed_IgnoreLoopback (env : ProbeEnv W K I R NP) (args : ProbeArgs) (b : Bool)
    (w : W) :
    executed (RunProbeCommand env { args with IgnoreLoopback := b }
        { world := w, trace := [] }).state.trace =
      executed (RunProbeCommand env args { world := w, trace := [] }).state.trace := by
  rw [RunProbeCommand_eq_setup_then_loop, RunProbeCommand_eq_setup_then_loop]
  have hsetup : RunProbeCommand.setup env { args with IgnoreLoopback := b } =
      RunProbeCommand.setup env args := rfl
  rw [hsetup]
  simp only [Prog.bind_apply]
  cases hs : RunProbeCommand.setup env args { world := w, trace := [] } with
  | halt e s1 => rfl
  | ok r s1 =>
    simp only [forPorts_run, Res.state, executed_append, executed_loopTrace]

/-- C1, counterexample: the flag removes no cell from any table. There is no
choice of collaborators, of a way to read a table off a result, of arguments
and of a world for which a test case run without the flag produces a table
with a self-pair cell while every table produced with the flag set has none:
the tables produced are the same with and without the flag. -/
theorem RunProbeCommand_IgnoreLoopback_removes_no_cell :
    ¬ ∃ (W K I R NP : Type) (env : ProbeEnv W K I R NP) (tableOf : R → TruthTable)
        (args : ProbeArgs) (w : W),
      (∃ cr ∈ executed (RunProbeCommand env { args with IgnoreLoopback := false }
          { world := w, trace := [] }).state.trace, (tableOf cr.2).hasSelfPair = true) ∧
      (∀ cr ∈ executed (RunProbeCommand env { args with IgnoreLoopback := true }
          { world := w, trace := [] }).state.trace, (tableOf cr.2).hasSelfPair = false) := by
  rintro ⟨W, K, I, R, NP, env, tableOf, args, w, ⟨cr, hcr, hself⟩, hnone⟩
  rw [executed_IgnoreLoopback env args false w] at hcr
  rw [← executed_IgnoreLoopback env args true w] at hcr
  have := hnone cr hcr
  rw [hself] at this
  exact Bool.noConfusion this

theorem setup_IgnoreLoopback (env : ProbeEnv W K I R NP) (args : ProbeArgs) (b : Bool) :
    RunProbeCommand.setup env { args with IgnoreLoopback := b } =
      RunProbeCommand.setup env args := rfl

/-- C1, amended: the tables do not depend on `IgnoreLoopback`. For every
`ProbeArgs`, running with the flag set to any value executes the same test
cases with the same results, leaves the same world and stops the same way as
running with the flag as given; the flag only reaches the printers handed to
`PrintTestCaseResult`, each of which carries it. -/
theorem RunProbeCommand_IgnoreLoopback_only_reaches_printer (env : ProbeEnv W K I R NP)
    (args : ProbeArgs) (b : Bool) (w : W) :
    executed (RunProbeCommand env { args with IgnoreLoopback := b }
        { world := w, trace := [] }).state.trace =
      executed (RunProbeCommand env args { world := w, trace := [] }).state.trace ∧
    (RunProbeCommand env { args with IgnoreLoopback := b }
        { world := w, trace := [] }).state.world =
      (RunProbeCommand env args { world := w, trace := [] }).state.world ∧
    (RunProbeCommand env { args with IgnoreLoopback := b }
        { world := w, trace := [] }).halted =
      (RunProbeCommand env args { world := w, trace := [] }).halted ∧
    ∀ printer ∈ printersUsed (RunProbeCommand env { args with IgnoreLoopback := b }
        { world := w, trace := [] }).state.trace,
      printer = { Noisy := args.Noisy, IgnoreLoopback := b } := by
  rw [RunProbeCommand_eq_setup_then_loop, RunProbeCommand_eq_setup_then_loop,
    setup_IgnoreLoopback]
  simp only [Prog.bind_apply]
  obtain ⟨t, ht, hsetup, _⟩ := setup_state env args { world := w, trace := [] }
  cases hs : RunProbeCommand.setup env args { world := w, trace := [] } with
  | halt e s1 =>
    rw [hs] at ht
    simp only [Res.state, List.nil_append] at ht
    refine ⟨rfl, rfl, rfl, ?_⟩
    simp [Res.state, ht, printersUsed_of_isSetup t hsetup]
  | ok r s1 =>
    rw [hs] at ht
    simp only [Res.state, List.nil_append] at ht
    simp only [forPorts_run, Res.state, Res.halted, executed_append, executed_loopTrace,
      printersUsed_append, ht, printersUsed_of_isSetup t hsetup, List.nil_append, true_and]
    exact printersUsed_loopTrace _ _ _

/-- Witness for the amended C1: on the example cluster, clearing the flag of
`loopbackArgs` gives the same executed test cases and results, and the printer
used carries the cleared flag. -/
theorem RunProbeCommand_IgnoreLoopback_only_reaches_printer_witness :
    executed (RunProbeCommand exampleProbeEnv { loopbackArgs with IgnoreLoopback := false }
        { world := exampleCluster, trace := [] }).state.trace =
      executed (RunProbeCommand exampleProbeEnv loopbackArgs
        { world := exampleCluster, trace := [] }).state.trace ∧
    ({ Noisy := false, IgnoreLoopback := false } : Printer) ∈
      printersUsed (RunProbeCommand exampleProbeEnv { loopbackArgs with IgnoreLoopback := false }
        { world := exampleCluster, trace := [] }).state.trace ∧
    ({ Noisy := false, IgnoreLoopback := false } : Printer) =
      { Noisy := loopbackArgs.Noisy, IgnoreLoopback := false } :=
  have hp : ({ Noisy := false, IgnoreLoopback := false } : Printer) ∈
      printersUsed (RunProbeCommand exampleProbeEnv { loopbackArgs with IgnoreLoopback := false }
        { world := exampleCluster, trace := [] }).state.trace := by
    decide
  ⟨(RunProbeCommand_IgnoreLoopback_only_reaches_printer exampleProbeEnv loopbackArgs false
      exampleCluster).1,
    hp,
    (RunProbeCommand_IgnoreLoopback_only_reaches_printer exampleProbeEnv loopbackArgs false
      exampleCluster).2.2.2 _ hp⟩

end claims_probe

/-! ## The claims about `recipe.go` -/

section claims_recipes
variable {W NP PM RN RS TB : Type}

theorem forall₂_of_forall_mem (env : RecipeEnv NP PM RN RS TB) (yamls : List String)
    (h : ∀ y ∈ yamls, ∃ p, env.ParseYaml y = Except.ok p) :
    ∃ policies, List.Forall₂ (fun y p => env.ParseYaml y = Except.ok p) yamls policies := by
  induction yamls with
  | nil => exact ⟨[], List.Forall₂.nil⟩
  | cons y rest ih =>
    obtain ⟨p, hp⟩ := h y (List.mem_cons_self _ _)
    obtain ⟨ps, hps⟩ := ih (fun z hz => h z (List.mem_cons_of_mem _ hz))
    exact ⟨p :: ps, List.Forall₂.cons hp hps⟩

theorem map_eq_of_forall₂ (env : RecipeEnv NP PM RN RS TB) (yamls : List String)
    (policies : List NP)
    (h : List.Forall₂ (fun y p => env.ParseYaml y = Except.ok p) yamls policies) :
    yamls.map env.ParseYaml = policies.map Except.ok := by
  induction h with
  | nil => rfl
  | cons h1 _ ih => simp [h1, ih]

/-- C3: `Recipe.Policies` never skips a policy. If every string of `PolicyYamls`
parses, it returns (leaving the state as it was) a list with one policy per
string, the i-th being the parse of the i-th string. If some string does not
parse, it stops through `DoOrDie` with a parse error of one of the strings and
returns no list at all. -/
theorem Recipe_Policies_all_or_abort (env : RecipeEnv NP PM RN RS TB) (r : Recipe RS)
    (s : St W (RecipeEvent PM)) :
    ((∀ y ∈ r.PolicyYamls, ∃ p, env.ParseYaml y = Except.ok p) →
      ∃ policies, Recipe.Policies env r s = Res.ok policies s ∧
        policies.length = r.PolicyYamls.length ∧
        r.PolicyYamls.map env.ParseYaml = policies.map Except.ok ∧
        ∀ (i : Nat) (h1 : i < r.PolicyYamls.length) (h2 : i < policies.length),
          env.ParseYaml (r.PolicyYamls.get ⟨i, h1⟩) = Except.ok (policies.get ⟨i, h2⟩)) ∧
    ((∃ y ∈ r.PolicyYamls, ∃ e, env.ParseYaml y = Except.error e) →
      ∃ y ∈ r.PolicyYamls, ∃ e, env.ParseYaml y = Except.error e ∧
        Recipe.Policies env r s = Res.halt (Halt.died e) s ∧
        (Recipe.Policies env r s).value? = none) := by
  constructor
  · intro h
    obtain ⟨policies, hall⟩ := forall₂_of_forall_mem env r.PolicyYamls h
    refine ⟨policies, ?_, (List.Forall₂.length_eq hall).symm, map_eq_of_forall₂ env _ _ hall, ?_⟩
    · rw [Policies_eq, (parseAll_ok_iff_forall₂ env _ _).2 hall]
    · intro i h1 h2
      exact List.Forall₂.get hall h1 h2
  · intro h
    obtain ⟨y, hmem, e, he, hm⟩ := parseAll_error_of_mem env r.PolicyYamls h
    refine ⟨y, hmem, e, he, ?_, ?_⟩
    · rw [Policies_eq, hm]
    · rw [Policies_eq, hm]
      rfl

/-- Witness for C3: two strings that parse, and a list whose second string does
not parse. -/
theorem Recipe_Policies_all_or_abort_witness :
    (∀ y ∈ ["deny-all", "deny-all"], ∃ p, exampleRecipeEnv.ParseYaml y = Except.ok p) ∧
    (∃ policies, Recipe.Policies exampleRecipeEnv
        ({ PolicyYamls := ["deny-all", "deny-all"], Resources := exampleResources,
           Protocol := ProtocolTCP, Port := 80 } : Recipe Topology)
        ({ world := (), trace := [] } : St Unit (RecipeEvent PolicyModel)) =
          Res.ok policies { world := (), trace := [] } ∧ policies.length = 2) ∧
    (∃ y ∈ ["deny-all", "allow-all"], ∃ e, exampleRecipeEnv.ParseYaml y = Except.error e) ∧
    (∃ e, Recipe.Policies exampleRecipeEnv
        ({ PolicyYamls := ["deny-all", "allow-all"], Resources := exampleResources,
           Protocol := ProtocolTCP, Port := 80 } : Recipe Topology)
        ({ world := (), trace := [] } : St Unit (RecipeEvent PolicyModel)) =
          Res.halt (Halt.died e) { world := (), trace := [] }) :=
  have h1 : ∀ y ∈ ["deny-all", "deny-all"], ∃ p, exampleRecipeEnv.ParseYaml y = Except.ok p := by
    intro y hy
    simp only [List.mem_cons, List.mem_singleton, List.not_mem_nil, or_false, or_self] at hy
    exact ⟨denyAllIngress, by rw [hy]; rfl⟩
  have h2 : ∃ y ∈ ["deny-all", "allow-all"], ∃ e,
      exampleRecipeEnv.ParseYaml y = Except.error e :=
    ⟨"allow-all", by simp, "invalid yaml", rfl⟩
  have r1 := (Recipe_Policies_all_or_abort exampleRecipeEnv
    ({ PolicyYamls := ["deny-all", "deny-all"], Resources := exampleResources,
       Protocol := ProtocolTCP, Port := 80 } : Recipe Topology)
    ({ world := (), trace := [] } : St Unit (RecipeEvent PolicyModel))).1 h1
  have r2 := (Recipe_Policies_all_or_abort exampleRecipeEnv
    ({ PolicyYamls := ["deny-all", "allow-all"], Resources := exampleResources,
       Protocol := ProtocolTCP, Port := 80 } : Recipe Topology)
    ({ world := (), trace := [] } : St Unit (RecipeEvent PolicyModel))).2 h2
  ⟨h1, ⟨r1.choose, r1.choose_spec.1, r1.choose_spec.2.1⟩, h2,
    ⟨r2.choose_spec.2.choose, r2.choose_spec.2.choose_spec.2.1⟩⟩

theorem probedModels_append (t1 t2 : List (RecipeEvent PM)) :
    probedModels (t1 ++ t2) = probedModels t1 ++ probedModels t2 := by
  simp [probedModels, List.filterMap_append]

theorem explainedModels_append (t1 t2 : List (RecipeEvent PM)) :
    explainedModels (t1 ++ t2) = explainedModels t1 ++ explainedModels t2 := by
  simp [explainedModels, List.filterMap_append]

theorem probedModels_bodyTrace (env : RecipeEnv NP PM RN RS TB) (recipe : Recipe RS)
    (model : PM) : probedModels (bodyTrace env recipe model) = [model] := by
  unfold bodyTrace probeTrace overflowLog
  by_cases h : overflowsInt32 recipe.Port = true <;>
    simp [probedModels, List.filterMap_cons, h]

theorem explainedModels_bodyTrace (env : RecipeEnv NP PM RN RS TB) (recipe : Recipe RS)
    (model : PM) : explainedModels (bodyTrace env recipe model) = [model] := by
  unfold bodyTrace probeTrace overflowLog
  by_cases h : overflowsInt32 recipe.Port = true <;>
    simp [explainedModels, List.filterMap_cons, h]

theorem Run_loop_eq (env : RecipeEnv NP PM RN RS TB) (recipes : List (Recipe RS))
    (s : St W (RecipeEvent PM)) :
    (Run.loop env recipes s).state =
        { world := s.world
          trace := s.trace ++
            (reached env recipes).flatMap (fun rm => bodyTrace env rm.1 rm.2) } ∧
      (Run.loop env recipes s).halted = firstHalt env recipes := by
  induction recipes generalizing s with
  | nil => simp [Run.loop, Res.state, Res.halted, reached, firstHalt]
  | cons recipe rest ih =>
    simp only [Run.loop, Prog.bind_apply, Run_body_eq, reached, firstHalt]
    cases hm : recipeModel env recipe with
    | error e => simp [Res.state, Res.halted]
    | ok model =>
      obtain ⟨h1, h2⟩ := ih
        { world := s.world, trace := s.trace ++ bodyTrace env recipe model }
      simp only [h1, h2, List.flatMap_cons, List.append_assoc, and_self]

theorem probedModels_reached (env : RecipeEnv NP PM RN RS TB)
    (done : List (Recipe RS × PM)) :
    probedModels (done.flatMap (fun rm => bodyTrace env rm.1 rm.2)) = done.map Prod.snd := by
  induction done with
  | nil => rfl
  | cons rm rest ih =>
    simp [List.flatMap_cons, probedModels_append, probedModels_bodyTrace, ih]

theorem explainedModels_reached (env : RecipeEnv NP PM RN RS TB)
    (done : List (Recipe RS × PM)) :
    explainedModels (done.flatMap (fun rm => bodyTrace env rm.1 rm.2)) = done.map Prod.snd := by
  induction done with
  | nil => rfl
  | cons rm rest ih =>
    simp [List.flatMap_cons, explainedModels_append, explainedModels_bodyTrace, ih]

theorem reached_spec (env : RecipeEnv NP PM RN RS TB) (recipes : List (Recipe RS)) :
    (∀ rm ∈ reached env recipes, rm.1 ∈ recipes ∧ recipeModel env rm.1 = Except.ok rm.2) ∧
      (firstHalt env recipes = none → (reached env recipes).map Prod.fst = recipes) := by
  induction recipes with
  | nil => simp [reached, firstHalt]
  | cons recipe rest ih =>
    simp only [reached, firstHalt]
    cases hm : recipeModel env recipe with
    | error e => simp
    | ok model =>
      obtain ⟨h1, h2⟩ := ih
      refine ⟨?_, ?_⟩
      · intro rm hrm
        rcases List.mem_cons.1 hrm with h | h
        · subst h
          exact ⟨List.mem_cons_self _ _, hm⟩
        · exact ⟨List.mem_cons_of_mem _ (h1 rm h).1, (h1 rm h).2⟩
      · intro h
        simp [h2 h]

theorem recipeModel_ok_iff (env : RecipeEnv NP PM RN RS TB) (recipe : Recipe RS) (model : PM) :
    recipeModel env recipe = Except.ok model ↔
      ∃ policies, parseAll env recipe.PolicyYamls = Except.ok policies ∧
        env.BuildNetworkPolicies true policies = Except.ok model := by
  unfold recipeModel
  cases hp : parseAll env recipe.PolicyYamls with
  | error e => simp
  | ok policies =>
    cases hb : env.BuildNetworkPolicies true policies with
    | error e => simp [hb]
    | ok m => simp [hb]

/-- C9: in `Run`, the model explained under "Policies:" is the model that was
probed, for every recipe of `AllRecipes`. The run makes, for the recipes of
`AllRecipes` in order, the calls of `bodyTrace`, up to the first recipe whose
policies do not parse or are rejected, where it stops: for each recipe it gets
through, `NewSimulatedRunner` inside `RunProbe` and then `ExplainTable` are
both called on the same `model`, which is `BuildNetworkPolicies(true, policies)`
for the `policies` parsed from the `PolicyYamls` of that recipe. So the models
probed and the models explained are the same list, one per recipe reached, and
when no recipe stops the run that is every recipe of `AllRecipes`. -/
theorem Run_explains_the_probed_model (env : RecipeEnv NP PM RN RS TB) (c : RecipeConsts RS)
    (w : W) :
    (Run env c { world := w, trace := [] }).state =
      { world := w
        trace := (reached env (AllRecipes c)).flatMap (fun rm => bodyTrace env rm.1 rm.2) } ∧
    (Run env c { world := w, trace := [] }).halted = firstHalt env (AllRecipes c) ∧
    probedModels (Run env c { world := w, trace := [] }).state.trace =
      (reached env (AllRecipes c)).map Prod.snd ∧
    explainedModels (Run env c { world := w, trace := [] }).state.trace =
      (reached env (AllRecipes c)).map Prod.snd ∧
    (∀ rm ∈ reached env (AllRecipes c), rm.1 ∈ AllRecipes c ∧
      (∃ policies, parseAll env rm.1.PolicyYamls = Except.ok policies ∧
        env.BuildNetworkPolicies true policies = Except.ok rm.2) ∧
      probedModels (bodyTrace env rm.1 rm.2) = [rm.2] ∧
      explainedModels (bodyTrace env rm.1 rm.2) = [rm.2]) ∧
    (firstHalt env (AllRecipes c) = none →
      (reached env (AllRecipes c)).map Prod.fst = AllRecipes c ∧
      (probedModels (Run env c { world := w, trace := [] }).state.trace).length = 15) := by
  obtain ⟨h1, h2⟩ := Run_loop_eq env (AllRecipes c) ({ world := w, trace := [] } : St W _)
  have hstate : (Run env c { world := w, trace := [] }).state =
      { world := w
        trace := (reached env (AllRecipes c)).flatMap (fun rm => bodyTrace env rm.1 rm.2) } := by
    simpa [Run] using h1
  have hp : probedModels (Run env c { world := w, trace := [] }).state.trace =
      (reached env (AllRecipes c)).map Prod.snd := by
    rw [hstate]
    exact probedModels_reached env _
  refine ⟨hstate, h2, hp, ?_, ?_, ?_⟩
  · rw [hstate]
    exact explainedModels_reached env _
  · intro rm hrm
    obtain ⟨hmem, hmodel⟩ := (reached_spec env (AllRecipes c)).1 rm hrm
    exact ⟨hmem, (recipeModel_ok_iff env rm.1 rm.2).1 hmodel,
      probedModels_bodyTrace env rm.1 rm.2, explainedModels_bodyTrace env rm.1 rm.2⟩
  · intro hnone
    have hall := (reached_spec env (AllRecipes c)).2 hnone
    refine ⟨hall, ?_⟩
    rw [hp, List.length_map, ← List.length_map (reached env (AllRecipes c)) Prod.fst, hall]
    rfl

/-- Witness for C9: the run on the example constants, where every recipe parses
and builds: all fifteen recipes are probed and explained, each on the model of
its policies. -/
theorem Run_explains_the_probed_model_witness :
    firstHalt exampleRecipeEnv (AllRecipes exampleConsts) = none ∧
    (probedModels (Run exampleRecipeEnv exampleConsts
        ({ world := (), trace := [] } : St Unit (RecipeEvent PolicyModel))).state.trace).length =
      15 ∧
    explainedModels (Run exampleRecipeEnv exampleConsts
        ({ world := (), trace := [] } : St Unit (RecipeEvent PolicyModel))).state.trace =
      (AllRecipes exampleConsts).map (fun recipe =>
        { entries := recipe.PolicyYamls.map (fun _ =>
            { namespaceName := "x", target := [], types := [Direction.ingress],
              ingress := [], egress := [] }) }) :=
  have h := Run_explains_the_probed_model exampleRecipeEnv exampleConsts ()
  ⟨rfl, (h.2.2.2.2.2 rfl).2, h.2.2.2.1.trans (by decide)⟩

theorem isolated_empty (w : Workload) (d : Direction) :
    PolicyModel.isolated { entries := [] } w d = false := by
  simp [PolicyModel.isolated, PolicyModel.entriesFor]

theorem Evaluate_empty (sample : TrafficSample) (topology : Topology) :
    Evaluate sample { entries := [] } topology = Verdict.Allowed := by
  simp [Evaluate, egressPermits, ingressPermits, isolated_empty]

theorem mem_tablePairs_false (topology : Topology) (a b : Workload)
    (ha : a ∈ topology.workloads) (hb : b ∈ topology.workloads) :
    (a, b) ∈ tablePairs topology false := by
  simp only [tablePairs, Bool.false_and, Bool.not_false, List.filter_true, List.mem_flatMap,
    List.mem_map]
  exact ⟨a, ha, b, hb, rfl⟩

theorem verdict_of_all (table : TruthTable) (v : Verdict) (source destination : WorkloadId)
    (hall : ∀ c ∈ table.cells, c.verdict = v)
    (hex : ∃ c ∈ table.cells, c.source = source ∧ c.destination = destination) :
    table.verdict source destination = some v := by
  unfold TruthTable.verdict
  cases hf : table.cells.find? (fun c => c.source == source && c.destination == destination) with
  | none =>
    obtain ⟨c, hc, h1, h2⟩ := hex
    have := List.find?_eq_none.1 hf c hc
    simp [h1, h2] at this
  | some c =>
    have hc : c ∈ table.cells := List.mem_of_find?_eq_some hf
    simp [hall c hc]

/-- C6: with no policies every flow is allowed. For a recipe whose `PolicyYamls`
is empty, `Policies` returns the empty list, and `RunProbe`, with the compiler
and the simulated runner modelled from the specification, returns the table
built against the empty policy model, on the port `intstr.FromInt` keeps, which
is `Port` whenever `Port` fits in `int32`. No workload is isolated in either
direction, and on every port every cell of the table is allowed and the table
holds an allowed cell for every pair of workloads of `Resources`. -/
theorem RunProbe_no_policies_all_allowed
    (base : RecipeEnv RawPolicy PolicyModel SimulatedRunner Topology TruthTable)
    (r : Recipe Topology) (s : St W (RecipeEvent PolicyModel)) (h : r.PolicyYamls = []) :
    Recipe.Policies (specRecipeEnv base) r s = Res.ok [] s ∧
    Recipe.RunProbe (specRecipeEnv base) r s =
      Res.ok (Build { entries := [] } r.Resources (toInt32 r.Port) r.Protocol false)
        { world := s.world, trace := s.trace ++ probeTrace r { entries := [] } } ∧
    (overflowsInt32 r.Port = false →
      Recipe.RunProbe (specRecipeEnv base) r s =
        Res.ok (Build { entries := [] } r.Resources r.Port r.Protocol false)
          { world := s.world
            trace := s.trace ++
              [RecipeEvent.NewSimulatedRunner { entries := [] } { TimeoutSeconds := 5 }] }) ∧
    (∀ (a : Workload) (d : Direction), PolicyModel.isolated { entries := [] } a d = false) ∧
    (∀ (port : Int), ∀ c ∈ (Build { entries := [] } r.Resources port r.Protocol false).cells,
      c.verdict = Verdict.Allowed) ∧
    (∀ (port : Int), ∀ a ∈ r.Resources.workloads, ∀ b ∈ r.Resources.workloads,
      (Build { entries := [] } r.Resources port r.Protocol false).verdict a.id b.id =
        some Verdict.Allowed) := by
  have hcells : ∀ (port : Int),
      ∀ c ∈ (Build { entries := [] } r.Resources port r.Protocol false).cells,
      c.verdict = Verdict.Allowed := by
    intro port c hc
    simp only [Build, List.mem_map] at hc
    obtain ⟨ab, _, hab⟩ := hc
    rw [← hab]
    simp only [Evaluate_empty]
  have hrun : Recipe.RunProbe (specRecipeEnv base) r s =
      Res.ok (Build { entries := [] } r.Resources (toInt32 r.Port) r.Protocol false)
        { world := s.world, trace := s.trace ++ probeTrace r { entries := [] } } := by
    rw [RunProbe_eq]
    simp [recipeModel, h, parseAll, specRecipeEnv, Compile, recipeTable, NewProbeConfig,
      SimulatedRunner.RunProbeForConfig]
  refine ⟨?_, hrun, ?_, isolated_empty, hcells, ?_⟩
  · rw [Policies_eq, h]
    rfl
  · intro hfits
    rw [hrun, toInt32_of_fits r.Port hfits]
    simp [probeTrace, overflowLog, hfits]
  · intro port a ha b hb
    apply verdict_of_all _ _ _ _ (hcells port)
    refine ⟨_, List.mem_map.2 ⟨(a, b), mem_tablePairs_false _ a b ha hb, rfl⟩, rfl, rfl⟩

/-- Witness for C6: the example resources with no policy, port 80 on TCP: the
cell from `a` to `b` is allowed. -/
theorem RunProbe_no_policies_all_allowed_witness :
    ({ PolicyYamls := [], Resources := exampleResources, Protocol := ProtocolTCP,
       Port := 80 } : Recipe Topology).PolicyYamls = [] ∧
    overflowsInt32 80 = false ∧
    (Recipe.RunProbe exampleRecipeEnv
      ({ PolicyYamls := [], Resources := exampleResources, Protocol := ProtocolTCP,
         Port := 80 } : Recipe Topology)
      ({ world := (), trace := [] } : St Unit (RecipeEvent PolicyModel))).value? =
      some (Build { entries := [] } exampleResources 80 ProtocolTCP false) ∧
    (Build { entries := [] } exampleResources 80 ProtocolTCP false).verdict ("x", "a") ("x", "b") =
      some Verdict.Allowed :=
  have h := RunProbe_no_policies_all_allowed
    { ParseYaml := fun yamlString =>
        if yamlString = "deny-all" then Except.ok denyAllIngress else Except.error "invalid yaml"
      BuildNetworkPolicies := fun _ _ => Except.error "no compiler"
      NewSimulatedRunner := fun model jobBuilder => { policies := model, jobBuilder := jobBuilder }
      RunProbeForConfig := fun _ _ _ => { sources := [], destinations := [], cells := [] }
      ExplainTable := fun _ => ""
      RenderResources := fun _ => ""
      RenderTable := fun _ => ""
      RenderIngress := fun _ => ""
      RenderEgress := fun _ => "" }
    ({ PolicyYamls := [], Resources := exampleResources, Protocol := ProtocolTCP,
       Port := 80 } : Recipe Topology)
    ({ world := (), trace := [] } : St Unit (RecipeEvent PolicyModel)) rfl
  ⟨rfl, rfl, congrArg Res.value? (h.2.2.1 rfl),
    h.2.2.2.2.2 80 (exampleResources.workloads.get ⟨0, by decide⟩) (List.get_mem _ _ _)
      (exampleResources.workloads.get ⟨1, by decide⟩) (List.get_mem _ _ _)⟩

theorem St_eta {Ev : Type} (s : St W Ev) :
    ({ world := s.world, trace := s.trace } : St W Ev) = s := by
  cases s; rfl

theorem freeze_eq (calls : RecipeCalls W NP PM RN RS TB) (hpure : calls.Pure) (w w1 : W) :
    calls.freeze w = calls.freeze w1 := by
  unfold RecipeCalls.freeze
  congr 1
  · funext y; exact (hpure.ParseYaml y w w1).1
  · funext b ps; exact (hpure.BuildNetworkPolicies b ps w w1).1
  · funext m j; exact (hpure.NewSimulatedRunner m j w w1).1
  · funext rn cfg rs; exact (hpure.RunProbeForConfig rn cfg rs w w1).1

theorem toCalls_pure (env : RecipeEnv NP PM RN RS TB) :
    (RecipeEnv.toCalls env : RecipeCalls W NP PM RN RS TB).Pure :=
  { ParseYaml := fun _ _ _ => ⟨rfl, rfl⟩
    BuildNetworkPolicies := fun _ _ _ _ => ⟨rfl, rfl⟩
    NewSimulatedRunner := fun _ _ _ _ => ⟨rfl, rfl⟩
    RunProbeForConfig := fun _ _ _ _ _ => ⟨rfl, rfl⟩ }

theorem Policies_inWorld_loop_eq (calls : RecipeCalls W NP PM RN RS TB) (hpure : calls.Pure)
    (yamls : List String) (acc : List NP) (s : St W (RecipeEvent PM)) :
    Recipe.Policies.inWorld.loop calls yamls acc s =
      Recipe.Policies.loop (calls.freeze s.world) yamls acc s := by
  induction yamls generalizing acc with
  | nil => rfl
  | cons y rest ih =>
    simp only [Recipe.Policies.inWorld.loop, Recipe.Policies.loop, Prog.bind_apply,
      stepWorld_apply, (hpure.ParseYaml y s.world s.world).2, St_eta]
    have hf : (calls.freeze s.world).ParseYaml y = (calls.ParseYaml y s.world).1 := rfl
    rw [hf]
    cases (calls.ParseYaml y s.world).1 with
    | error e => rfl
    | ok p => simp only [DoOrDie_ok, ih]

theorem RunProbe_inWorld_eq (calls : RecipeCalls W NP PM RN RS TB) (hpure : calls.Pure)
    (r : Recipe RS) (s : St W (RecipeEvent PM)) :
    Recipe.RunProbe.inWorld calls r s = Recipe.RunProbe (calls.freeze s.world) r s := by
  simp only [Recipe.RunProbe.inWorld, Recipe.RunProbe, Recipe.Policies.inWorld,
    Recipe.Policies, Prog.bind_apply, Policies_inWorld_loop_eq calls hpure, Policies_loop_eq]
  cases hp : parseAll (calls.freeze s.world) r.PolicyYamls with
  | error e => rfl
  | ok policies =>
    simp only [List.nil_append, stepWorld_apply, BuildNetworkPolicies_eq,
      (hpure.BuildNetworkPolicies true policies s.world s.world).2, St_eta]
    have hf : (calls.freeze s.world).BuildNetworkPolicies true policies =
        (calls.BuildNetworkPolicies true policies s.world).1 := rfl
    rw [hf]
    cases (calls.BuildNetworkPolicies true policies s.world).1 with
    | error e => rfl
    | ok model =>
      simp only [Prog.bind_apply, emit_apply, Prog.pure_apply, stepWorld_apply, FromInt_apply,
        (hpure.NewSimulatedRunner model { TimeoutSeconds := 5 } s.world s.world).2,
        (hpure.RunProbeForConfig _ _ _ s.world s.world).2]
      rfl

theorem RunProbe_inWorld_run (calls : RecipeCalls W NP PM RN RS TB) (hpure : calls.Pure)
    (w0 : W) (r : Recipe RS) (s : St W (RecipeEvent PM)) :
    Recipe.RunProbe.inWorld calls r s =
      match recipeModel (calls.freeze w0) r with
      | Except.ok model =>
          Res.ok (recipeTable (calls.freeze w0) r model)
            { world := s.world, trace := s.trace ++ probeTrace r model }
      | Except.error h => Res.halt h s := by
  rw [RunProbe_inWorld_eq calls hpure, freeze_eq calls hpure s.world w0, RunProbe_eq]

theorem written_append (t1 t2 : List (RecipeEvent PM)) :
    written (t1 ++ t2) = written t1 ++ written t2 := by
  simp [written, List.filter_append]

theorem written_probeTrace (r : Recipe RS) (model : PM) :
    written (probeTrace r model) = overflowLog r.Port := by
  unfold probeTrace overflowLog
  by_cases h : overflowsInt32 r.Port = true <;> simp [written, h]

/-- C5, counterexample: `RunProbe` on a recipe with no policy whose `Port` is
`2147483648`, one more than the largest `int32`, writes to the log: the call of
`intstr.FromInt` reports the overflow, and the probe runs on port
`-2147483648`. -/
theorem RunProbe_logs_on_port_overflow :
    Recipe.RunProbe.inWorld (RecipeEnv.toCalls exampleRecipeEnv)
        ({ PolicyYamls := [], Resources := exampleResources, Protocol := ProtocolTCP,
           Port := 2147483648 } : Recipe Topology)
        ({ world := (), trace := [] } : St Unit (RecipeEvent PolicyModel)) =
      Res.ok (Build { entries := [] } exampleResources (-2147483648) ProtocolTCP false)
        { world := ()
          trace := [ RecipeEvent.NewSimulatedRunner { entries := [] } { TimeoutSeconds := 5 },
                     RecipeEvent.Errorf "value: %d overflows int32\n%s\n" 2147483648 ] } ∧
    written (Recipe.RunProbe.inWorld (RecipeEnv.toCalls exampleRecipeEnv)
        ({ PolicyYamls := [], Resources := exampleResources, Protocol := ProtocolTCP,
           Port := 2147483648 } : Recipe Topology)
        ({ world := (), trace := [] } : St Unit (RecipeEvent PolicyModel))).state.trace ≠
      written ([] : List (RecipeEvent PolicyModel)) := by
  have h : Recipe.RunProbe.inWorld (RecipeEnv.toCalls exampleRecipeEnv)
        ({ PolicyYamls := [], Resources := exampleResources, Protocol := ProtocolTCP,
           Port := 2147483648 } : Recipe Topology)
        ({ world := (), trace := [] } : St Unit (RecipeEvent PolicyModel)) =
      Res.ok (Build { entries := [] } exampleResources (-2147483648) ProtocolTCP false)
        { world := ()
          trace := [ RecipeEvent.NewSimulatedRunner { entries := [] } { TimeoutSeconds := 5 },
                     RecipeEvent.Errorf "value: %d overflows int32\n%s\n" 2147483648 ] } := rfl
  refine ⟨h, ?_⟩
  rw [h]
  decide

/-- C5, amended: with collaborators that are deterministic and do no input or
output, `RunProbe` is deterministic: two recipes with the same `PolicyYamls`,
`Resources`, `Protocol` and `Port` give the same table, or stop the same way,
in any two states, so the second of two calls in a row returns the table of
the first. The call leaves the world as it was. What it writes is the overflow
line of `intstr.FromInt`, once, when it returns and `Port` overflows `int32`;
for a `Port` that fits in `int32` it writes nothing. -/
theorem RunProbe_deterministic (calls : RecipeCalls W NP PM RN RS TB) (hpure : calls.Pure)
    (r1 r2 : Recipe RS) (s1 s2 : St W (RecipeEvent PM))
    (hyamls : r1.PolicyYamls = r2.PolicyYamls) (hresources : r1.Resources = r2.Resources)
    (hprotocol : r1.Protocol = r2.Protocol) (hport : r1.Port = r2.Port) :
    (Recipe.RunProbe.inWorld calls r1 s1).value? =
      (Recipe.RunProbe.inWorld calls r2 s2).value? ∧
    (Recipe.RunProbe.inWorld calls r1 s1).halted =
      (Recipe.RunProbe.inWorld calls r2 s2).halted ∧
    (Recipe.RunProbe.inWorld calls r1 >>= fun t1 =>
      Recipe.RunProbe.inWorld calls r2 >>= fun t2 =>
        (pure (t1, t2) : Prog (St W (RecipeEvent PM)) (TB × TB))) s1 =
      (Recipe.RunProbe.inWorld calls r1 >>= fun t1 =>
        Recipe.RunProbe.inWorld calls r2 >>= fun _ =>
          (pure (t1, t1) : Prog (St W (RecipeEvent PM)) (TB × TB))) s1 ∧
    (Recipe.RunProbe.inWorld calls r1 s1).state.world = s1.world ∧
    written (Recipe.RunProbe.inWorld calls r1 s1).state.trace =
      written s1.trace ++
        (if (Recipe.RunProbe.inWorld calls r1 s1).halted = none then overflowLog r1.Port
          else []) ∧
    (overflowsInt32 r1.Port = false →
      written (Recipe.RunProbe.inWorld calls r1 s1).state.trace = written s1.trace) := by
  have hr : r1 = r2 := by
    cases r1; cases r2
    simp only at hyamls hresources hprotocol hport
    subst hyamls hresources hprotocol hport
    rfl
  subst hr
  simp only [Prog.bind_apply, RunProbe_inWorld_run calls hpure s1.world]
  cases hm : recipeModel (calls.freeze s1.world) r1 with
  | error e => simp [Res.value?, Res.halted, Res.state]
  | ok model =>
    simp only [Res.value?, Res.halted, Res.state, written_append, written_probeTrace,
      if_true, true_and, Prog.pure_apply]
    intro hfits
    simp [overflowLog, hfits]

/-- Witness for C5: the recipe with the one policy `deny-all` on the example
resources and port 80, called in a fresh state and in a state with an earlier
output call in its trace. -/
theorem RunProbe_deterministic_witness :
    (RecipeEnv.toCalls exampleRecipeEnv :
      RecipeCalls Unit RawPolicy PolicyModel SimulatedRunner Topology TruthTable).Pure ∧
    overflowsInt32 80 = false ∧
    (Recipe.RunProbe.inWorld (RecipeEnv.toCalls exampleRecipeEnv)
      ({ PolicyYamls := ["deny-all"], Resources := exampleResources, Protocol := ProtocolTCP,
         Port := 80 } : Recipe Topology)
      ({ world := (), trace := [] } : St Unit (RecipeEvent PolicyModel))).value? =
    (Recipe.RunProbe.inWorld (RecipeEnv.toCalls exampleRecipeEnv)
      ({ PolicyYamls := ["deny-all"], Resources := exampleResources, Protocol := ProtocolTCP,
         Port := 80 } : Recipe Topology)
      ({ world := (), trace := [RecipeEvent.Printf "\n\n\n" none] } :
        St Unit (RecipeEvent PolicyModel))).value? ∧
    written (Recipe.RunProbe.inWorld (RecipeEnv.toCalls exampleRecipeEnv)
      ({ PolicyYamls := ["deny-all"], Resources := exampleResources, Protocol := ProtocolTCP,
         Port := 80 } : Recipe Topology)
      ({ world := (), trace := [] } : St Unit (RecipeEvent PolicyModel))).state.trace =
      written ([] : List (RecipeEvent PolicyModel)) :=
  have h := RunProbe_deterministic (RecipeEnv.toCalls exampleRecipeEnv)
    (toCalls_pure exampleRecipeEnv)
    ({ PolicyYamls := ["deny-all"], Resources := exampleResources, Protocol := ProtocolTCP,
       Port := 80 } : Recipe Topology)
    ({ PolicyYamls := ["deny-all"], Resources := exampleResources, Protocol := ProtocolTCP,
       Port := 80 } : Recipe Topology)
    ({ world := (), trace := [] } : St Unit (RecipeEvent PolicyModel))
    ({ world := (), trace := [RecipeEvent.Printf "\n\n\n" none] } :
      St Unit (RecipeEvent PolicyModel))
    rfl rfl rfl rfl
  ⟨toCalls_pure exampleRecipeEnv, rfl, h.1, h.2.2.2.2.2 rfl⟩

theorem parseAll_congr (env1 env2 : RecipeEnv NP PM RN RS TB)
    (h : env1.ParseYaml = env2.ParseYaml) (yamls : List String) :
    parseAll env1 yamls = parseAll env2 yamls := by
  induction yamls with
  | nil => rfl
  | cons y rest ih => simp only [parseAll, h, ih]

theorem RunProbe_inWorld_toCalls (env : RecipeEnv NP PM RN RS TB) (r : Recipe RS)
    (s : St W (RecipeEvent PM)) :
    Recipe.RunProbe.inWorld (RecipeEnv.toCalls env) r s = Recipe.RunProbe env r s := by
  rw [RunProbe_inWorld_eq _ (toCalls_pure env), RunProbe_eq, RunProbe_eq]
  have hm : recipeModel ((RecipeEnv.toCalls env : RecipeCalls W NP PM RN RS TB).freeze s.world) r =
      recipeModel env r := by
    unfold recipeModel
    rw [parseAll_congr ((RecipeEnv.toCalls env : RecipeCalls W NP PM RN RS TB).freeze s.world) env rfl]
    rfl
  rw [hm]
  rfl

theorem RunProbe_inWorld_countingCalls :
    ((Recipe.RunProbe.inWorld countingCalls
        ({ PolicyYamls := [], Resources := (), Protocol := ProtocolTCP, Port := 80 } :
          Recipe Unit) >>= fun t1 =>
      Recipe.RunProbe.inWorld countingCalls
        ({ PolicyYamls := [], Resources := (), Protocol := ProtocolTCP, Port := 80 } :
          Recipe Unit) >>= fun t2 =>
        (pure (t1, t2) : Prog (St Nat (RecipeEvent Unit)) (Nat × Nat)))
      { world := 0, trace := [] }).value? = some (0, 1) := rfl

end claims_recipes

end NetPol
